import Mathlib

/-!
# Verification of the referral-assignment intake pipeline

This development gives a shallow embedding, in Lean 4, of the core of the
referral-intake CRM: the field normalizers and name/address splitting in
`services/filemaker_conversion.py` and `services/extraction_service.py`, the
service line-item splitting in `services/line_item_service.py`, and the
queue workflow engine in `services/workflow_service.py`.  Python strings are
modelled as Lean `String`s (ASCII case mapping; the keyword tables involved
are all ASCII), Python `int`s as `Int`/`Nat`, Python `float` arithmetic as
exact rationals (the comparisons at issue are far from any rounding
boundary), and code that can raise an exception returns `Option`.
Each definition is translated directly from the corresponding Python
function, keeping the source names where Lean allows.
-/

namespace ReferralCRM

/-- Python whitespace characters (`str.strip`, `\s`, `str.split()` with no
separator).  The six ASCII whitespace characters recognised by Python. -/
def isPySpace (c : Char) : Bool :=
  c = ' ' || c = '\t' || c = '\n' || c = '\r' || c = '\x0b' || c = '\x0c'

/-- ASCII lower-casing of one character, modelling `str.lower` on the ASCII
fragment that all keyword tables in the source use. -/
def pyToLower (c : Char) : Char :=
  if 'A' ≤ c ∧ c ≤ 'Z' then Char.ofNat (c.toNat + 32) else c

/-- ASCII upper-casing of one character, modelling `str.upper`. -/
def pyToUpper (c : Char) : Char :=
  if 'a' ≤ c ∧ c ≤ 'z' then Char.ofNat (c.toNat - 32) else c

/-- Lower-case a whole string (`s.lower()`). -/
def lowerString (s : String) : String := ⟨s.data.map pyToLower⟩

/-- Upper-case a whole string (`s.upper()`). -/
def upperString (s : String) : String := ⟨s.data.map pyToUpper⟩

/-- Strip leading and trailing Python whitespace from a character list. -/
def pyStripL (cs : List Char) : List Char :=
  ((cs.dropWhile isPySpace).reverse.dropWhile isPySpace).reverse

/-- Python `str.strip()`. -/
def pyStrip (s : String) : String := (pyStripL s.data).asString

/-- Core of `str.split()` with no separator: skip whitespace runs and take
maximal non-whitespace runs as tokens (`cur` holds the current token in
reverse). -/
def pySplitWSGo (cur : List Char) : List Char → List String
  | [] => if cur.isEmpty then [] else [cur.reverse.asString]
  | c :: cs =>
    if isPySpace c then
      if cur.isEmpty then pySplitWSGo [] cs
      else cur.reverse.asString :: pySplitWSGo [] cs
    else pySplitWSGo (c :: cur) cs

/-- Python `str.split()` with no separator: split on whitespace runs and
drop empty pieces. -/
def pySplitWS (s : String) : List String := pySplitWSGo [] s.data

/-- Check that `pat` is an initial segment of `hay` (helper for substring
containment). -/
def startsWithL : List Char → List Char → Bool
  | [], _ => true
  | _ :: _, [] => false
  | p :: ps, h :: hs => p = h && startsWithL ps hs

/-- Contiguous-substring test on character lists, modelling Python
`pat in hay` for strings. -/
def containsSub (hay pat : List Char) : Bool :=
  if startsWithL pat hay then true
  else
    match hay with
    | [] => false
    | _ :: t => containsSub t pat

/-- Substring test on strings (`pat in hay` in Python). -/
def containsStr (hay pat : String) : Bool := containsSub hay.data pat.data

/-!
## Field normalizers

From `FieldTransformer` in `services/filemaker_conversion.py`.  The module
`services/extraction_service.py` contains byte-identical copies of the state
table and of `normalize_state`; the copies are embedded once.
-/

/-- State-name-to-code table (`FieldTransformer.STATE_MAPPING`, identical to
the `state_map` literal in `ExtractionService._normalize_state`). -/
def stateMapping : List (String × String) :=
  [("alabama", "AL"), ("alaska", "AK"), ("arizona", "AZ"), ("arkansas", "AR"),
   ("california", "CA"), ("colorado", "CO"), ("connecticut", "CT"), ("delaware", "DE"),
   ("florida", "FL"), ("georgia", "GA"), ("hawaii", "HI"), ("idaho", "ID"),
   ("illinois", "IL"), ("indiana", "IN"), ("iowa", "IA"), ("kansas", "KS"),
   ("kentucky", "KY"), ("louisiana", "LA"), ("maine", "ME"), ("maryland", "MD"),
   ("massachusetts", "MA"), ("michigan", "MI"), ("minnesota", "MN"), ("mississippi", "MS"),
   ("missouri", "MO"), ("montana", "MT"), ("nebraska", "NE"), ("nevada", "NV"),
   ("new hampshire", "NH"), ("new jersey", "NJ"), ("new mexico", "NM"), ("new york", "NY"),
   ("north carolina", "NC"), ("north dakota", "ND"), ("ohio", "OH"), ("oklahoma", "OK"),
   ("oregon", "OR"), ("pennsylvania", "PA"), ("rhode island", "RI"), ("south carolina", "SC"),
   ("south dakota", "SD"), ("tennessee", "TN"), ("texas", "TX"), ("utah", "UT"),
   ("vermont", "VT"), ("virginia", "VA"), ("washington", "WA"), ("west virginia", "WV"),
   ("wisconsin", "WI"), ("wyoming", "WY"), ("dc", "DC"), ("district of columbia", "DC")]

/-- Convert a state name to a 2-letter code
(`FieldTransformer.normalize_state`; `ExtractionService._normalize_state` is
identical).  A 2-character input is upper-cased as is; otherwise the
lower-cased, stripped input is looked up in the table, falling back to the
first two characters of the upper-cased input. -/
def normalizeState (state : String) : String :=
  if state = "" then ""
  else if state.length = 2 then upperString state
  else
    match stateMapping.lookup (pyStrip (lowerString state)) with
    | some code => code
    | none => ((upperString state).data.take 2).asString

/-- Validate and normalize a ZIP code (`FieldTransformer.normalize_zip`).
Keeps a 5- or 9-digit string of digits, truncates longer digit strings to 5,
and returns the original input when fewer than 5 digits are present. -/
def normalizeZip (zipCode : String) : String :=
  if zipCode = "" then ""
  else
    let digits := zipCode.data.filter Char.isDigit
    if digits.length = 5 ∨ digits.length = 9 then digits.asString
    else if digits.length > 5 then (digits.take 5).asString
    else zipCode

/-- Split a full name into first and last
(`FieldTransformer.split_full_name`).  The result is `none` when the Python
code raises: for a non-empty input containing only whitespace the token list
is empty and `parts[0]` in the final branch raises `IndexError`. -/
def splitFullName (fullName : String) : Option (String × String) :=
  if fullName = "" then some ("", "")
  else
    match pySplitWS (pyStrip fullName) with
    | [p] => some ("", p)
    | [p, q] => some (p, q)
    | [] => none
    | p :: rest => some (p, String.intercalate " " rest)

/-- Split a full name into first and last (`ExtractionService._split_name`),
a second copy of the same algorithm with the same `IndexError` on non-empty
all-whitespace input. -/
def splitNameE (fullName : String) : Option (String × String) :=
  if fullName = "" then some ("", "")
  else
    match pySplitWS (pyStrip fullName) with
    | [p] => some ("", p)
    | [p, q] => some (p, q)
    | [] => none
    | p :: rest => some (p, String.intercalate " " rest)

/-!
### C8 and C9
-/

/-- C8: `split_full_name` returns `("","")` for empty input, `("", token)`
for one token, `(first, last)` for two tokens and
`(first, rest joined by spaces)` for three or more; in particular the two
quoted examples hold.  However, on a non-empty input with zero tokens
(whitespace only) both copies of the function raise `IndexError`
(modelled as `none`) instead of returning `("","")`. -/
theorem splitFullName_zero_token_crash :
    splitFullName "" = some ("", "") ∧
    splitFullName "Smith" = some ("", "Smith") ∧
    splitFullName "John Smith" = some ("John", "Smith") ∧
    splitFullName "John Q Smith" = some ("John", "Q Smith") ∧
    splitFullName "   " = none ∧
    splitNameE "   " = none := by
  refine ⟨?_, ?_, ?_, ?_, ?_, ?_⟩ <;> decide

/-- C9: `normalize_zip` is idempotent on every input string. -/
theorem normalizeZip_idempotent (x : String) :
    normalizeZip (normalizeZip x) = normalizeZip x := by
  unfold normalizeZip
  by_cases hx : x = ""
  · simp [hx]
  · simp only [hx, if_false]
    set d := x.data.filter Char.isDigit with hd
    have hall : ∀ c ∈ d, Char.isDigit c = true := by
      intro c hc
      exact (List.mem_filter.mp (hd ▸ hc)).2
    by_cases h59 : d.length = 5 ∨ d.length = 9
    · -- the output is the digit string itself
      simp only [h59, if_true]
      have hne : (d.asString : String) ≠ "" := by
        intro habs
        have : d = [] := congrArg String.data habs
        rcases h59 with h | h <;> simp [this] at h
      have hdata : (d.asString).data = d := rfl
      have hfilter : d.filter Char.isDigit = d := List.filter_eq_self.mpr hall
      simp [hne, hdata, hfilter, h59]
    · simp only [h59, if_false]
      by_cases hgt : d.length > 5
      · -- truncated to the first five digits
        simp only [hgt, if_true]
        have htake_all : ∀ c ∈ d.take 5, Char.isDigit c = true := by
          intro c hc
          exact hall c (List.mem_of_mem_take hc)
        have hlen : (d.take 5).length = 5 := by
          simp [List.length_take]
          omega
        have hne : ((d.take 5).asString : String) ≠ "" := by
          intro habs
          have : d.take 5 = [] := congrArg String.data habs
          simp [this] at hlen
        have hdata : ((d.take 5).asString).data = d.take 5 := rfl
        have hfilter : (d.take 5).filter Char.isDigit = d.take 5 :=
          List.filter_eq_self.mpr htake_all
        simp [hne, hdata, hfilter, hlen]
      · -- fewer than five digits: the input is returned unchanged
        simp [hx, hd.symm, h59, hgt]

/-!
## Service line-item parsing

From `ServiceLineItemParser` in `services/line_item_service.py`.  The
database-backed enrichments (`service_type_id`, `body_region_id`,
`_link_icd10`, `_derive_procedure_code`) and the quantity regex only
decorate an already-created line item and are not referenced by any claim;
they are omitted from the embedding.  Everything that decides which line
items exist, their line numbers, descriptions, modality, laterality and
contrast flag is embedded.
-/

/-- Service modality enum (`ServiceModality` in `models/enums.py`). -/
inductive ServiceModality where
  | imaging
  | physical_therapy
  | occupational_therapy
  | chiropractic
  | ime
  | fce
  | surgery
  | diagnostic
  | dme
  | injection
  | other
  deriving DecidableEq, Repr

/-- Keyword table `ServiceLineItemParser.SERVICE_PATTERNS` in source order
(service-type name, modality, keywords). -/
def servicePatterns : List (String × ServiceModality × List String) :=
  [("MRI", .imaging, ["mri", "magnetic resonance", "mr imaging", "mr scan"]),
   ("CT Scan", .imaging, ["ct", "cat scan", "computed tomography", "ct scan"]),
   ("X-Ray", .imaging, ["x-ray", "xray", "x ray", "radiograph", "plain film"]),
   ("Ultrasound", .imaging, ["ultrasound", "sonograph", "us ", "sonogram"]),
   ("PT Evaluation", .physical_therapy, ["pt eval", "physical therapy eval", "pt evaluation"]),
   ("PT Treatment", .physical_therapy,
     ["pt ", "physical therapy", "physiotherapy", "pt treatment", "therapeutic exercise"]),
   ("OT Evaluation", .occupational_therapy, ["ot eval", "occupational therapy eval"]),
   ("OT Treatment", .occupational_therapy, ["ot ", "occupational therapy"]),
   ("Chiropractic", .chiropractic, ["chiro", "chiropractic", "spinal manipulation"]),
   ("IME", .ime, ["ime", "independent medical exam", "independent medical evaluation"]),
   ("FCE", .fce, ["fce", "functional capacity", "functional capacity evaluation"]),
   ("Injection", .injection,
     ["injection", "epidural", "nerve block", "facet", "trigger point", "cortisone"])]

/-- Laterality keyword lists `ServiceLineItemParser.LATERALITY_PATTERNS`,
in dictionary (insertion) order: left, right, bilateral. -/
def leftKeywords : List String := ["left", "l ", "lt ", "l.", "lt."]

/-- Right-laterality keywords, tested after the left list. -/
def rightKeywords : List String := ["right", "r ", "rt ", "r.", "rt."]

/-- Bilateral keywords, tested last. -/
def bilateralKeywords : List String := ["bilateral", "both", "b/l", "bil"]

/-- Test whether any keyword of the list occurs as a substring of the
(already lower-cased) text. -/
def anyKeyword (textLower : String) (kws : List String) : Bool :=
  kws.any (fun k => containsStr textLower k)

/-- Modality detection: first entry of `SERVICE_PATTERNS` with a keyword
hit determines the modality (the source loops with a break as soon as
`item.modality` is set). -/
def detectModality (textLower : String) : Option ServiceModality :=
  (servicePatterns.find? (fun e => anyKeyword textLower e.2.2)).map (fun e => e.2.1)

/-- Laterality detection: the `LATERALITY_PATTERNS` dictionary is iterated
in insertion order and the first list with a keyword hit wins. -/
def detectLaterality (textLower : String) : Option String :=
  if anyKeyword textLower leftKeywords then some "left"
  else if anyKeyword textLower rightKeywords then some "right"
  else if anyKeyword textLower bilateralKeywords then some "bilateral"
  else none

/-- Contrast detection: explicit with-contrast phrases set the flag true,
explicit without-contrast phrases set it false, otherwise the column
default is kept (modelled as `none`). -/
def detectContrast (textLower : String) : Option Bool :=
  if containsStr textLower "with contrast" || containsStr textLower "w/ contrast"
      || containsStr textLower "w/contrast" then some true
  else if containsStr textLower "without contrast" || containsStr textLower "w/o contrast"
      || containsStr textLower "w/o" then some false
  else none

/-- Replace each maximal run of newlines by a comma and a space
(the `re.sub` of one-or-more newlines in `_split_services`); `skip` is true
while consuming the rest of a run. -/
def subNewlinesGo (skip : Bool) : List Char → List Char
  | [] => []
  | c :: cs =>
    if c = '\n' then
      if skip then subNewlinesGo true cs
      else ',' :: ' ' :: subNewlinesGo true cs
    else c :: subNewlinesGo false cs

/-- Replace each semicolon together with surrounding whitespace by a comma
and a space (the second `re.sub` in `_split_services`).  `pending` holds
whitespace (reversed) that may yet turn out to precede a semicolon; `skip`
is true while consuming whitespace that follows a replaced semicolon. -/
def subSemisGo (pending : List Char) (skip : Bool) : List Char → List Char
  | [] => pending.reverse
  | c :: cs =>
    if c = ';' then ',' :: ' ' :: subSemisGo [] true cs
    else if isPySpace c then
      if skip then subSemisGo pending true cs
      else subSemisGo (c :: pending) false cs
    else pending.reverse ++ c :: subSemisGo [] false cs

/-- Split on commas at parenthesis depth zero, stripping each piece and
dropping empty pieces (the character loop of `_split_services`).  `cur`
holds the current piece in reverse. -/
def commaSplitGo (depth : Int) (cur : List Char) (acc : List String) :
    List Char → List String
  | [] =>
    let part := pyStripL cur.reverse
    if part.isEmpty then acc else acc ++ [part.asString]
  | c :: cs =>
    if c = '(' then commaSplitGo (depth + 1) (c :: cur) acc cs
    else if c = ')' then commaSplitGo (depth - 1) (c :: cur) acc cs
    else if c = ',' ∧ depth = 0 then
      let part := pyStripL cur.reverse
      commaSplitGo depth [] (if part.isEmpty then acc else acc ++ [part.asString]) cs
    else commaSplitGo depth (c :: cur) acc cs

/-- Case-insensitive comparison of one character against a lower-case
letter. -/
def lowEq (c target : Char) : Bool := pyToLower c = target

/-- Split a piece on the regex of whitespace, the word and, and more
whitespace, case-insensitively (the `re.split` in `_split_services`).
`cur` holds the current segment in reverse, `sp` a pending whitespace run
in reverse, and `skip` is true while consuming the whitespace that a match
just absorbed. -/
def splitOnAndGo (skip : Bool) (cur sp : List Char) : List Char → List (List Char)
  | [] => [(sp ++ cur).reverse]
  | c :: n :: d :: r :: rest =>
    if !skip && !isPySpace c && !sp.isEmpty
        && lowEq c 'a' && lowEq n 'n' && lowEq d 'd' && isPySpace r then
      cur.reverse :: splitOnAndGo true [] [] rest
    else if skip then
      if isPySpace c then splitOnAndGo true cur sp (n :: d :: r :: rest)
      else splitOnAndGo false (c :: cur) [] (n :: d :: r :: rest)
    else if isPySpace c then splitOnAndGo false cur (c :: sp) (n :: d :: r :: rest)
    else splitOnAndGo false (c :: (sp ++ cur)) [] (n :: d :: r :: rest)
  | c :: cs =>
    if skip then
      if isPySpace c then splitOnAndGo true cur sp cs
      else splitOnAndGo false (c :: cur) [] cs
    else if isPySpace c then splitOnAndGo false cur (c :: sp) cs
    else splitOnAndGo false (c :: (sp ++ cur)) [] cs

/-- Split service text into individual service strings
(`ServiceLineItemParser._split_services`): normalize newline runs and
semicolons to commas, split on commas outside parentheses, then split each
piece on the word and, unless the piece contains the phrase
with and without. -/
def splitServices (text : String) : List String :=
  let t1 := subNewlinesGo false text.data
  let t2 := subSemisGo [] false t1
  let parts := commaSplitGo 0 [] [] t2
  (parts.map (fun part =>
    let low := lowerString part
    if containsStr low " and " && !containsStr low "with and without" then
      (splitOnAndGo false [] [] part.data).map List.asString
    else [part])).flatten

/-- Embedded referral line item (`ReferralLineItem` fields that the parser
populates; the database-linked fields are omitted, see the section
comment). -/
structure LineItem where
  line_number : Nat
  service_description : String
  modality : Option ServiceModality := none
  laterality : Option String := none
  with_contrast : Option Bool := none
  icd10_code : Option String := none
  icd10_description : Option String := none
  confidence : ℚ := 0
  source : String := ""
  deriving DecidableEq, Repr

/-- Parse one already-stripped service description
(`ServiceLineItemParser._parse_single_service`): pieces shorter than 3
characters are rejected, otherwise a line item is created and the keyword
detections run on the lower-cased text. -/
def parseSingleService (text : String) (lineNumber : Nat) : Option LineItem :=
  if text = "" ∨ text.length < 3 then none
  else
    let tl := lowerString text
    some
      { line_number := lineNumber
        service_description := text
        modality := detectModality tl
        laterality := detectLaterality tl
        with_contrast := detectContrast tl }

/-- Body of the enumeration loop in `ServiceLineItemParser.parse` for one
piece `p` (0-based index and text): strip it, skip it when empty, parse it,
and on success apply the referral-level ICD-10 data (when truthy) and the
extraction confidence and source. -/
def parsePiece (icd10Code icd10Description : Option String) (confidence : ℚ)
    (p : Nat × String) : Option LineItem :=
  let part := pyStrip p.2
  if part = "" then none
  else
    match parseSingleService part (p.1 + 1) with
    | none => none
    | some item =>
      let item1 :=
        match icd10Code with
        | some code =>
          if code = "" then item
          else { item with icd10_code := some code, icd10_description := icd10Description }
        | none => item
      some { item1 with confidence := confidence, source := "extraction" }

/-- Parse service text into structured line items
(`ServiceLineItemParser.parse`): split the text, then run the loop body on
each piece together with its position. -/
def parseLineItems (serviceText : String) (icd10Code icd10Description : Option String)
    (confidence : ℚ) : List LineItem :=
  if serviceText = "" then []
  else (splitServices serviceText).enum.filterMap
    (parsePiece icd10Code icd10Description confidence)

/-!
### C7 and C10
-/

/-- One piece of the split yields exactly one line item when its stripped
text has at least 3 characters, carrying the 1-based position as its line
number, and yields nothing otherwise. -/
lemma parsePiece_proj (icd desc : Option String) (conf : ℚ) (p : Nat × String) :
    (parsePiece icd desc conf p).map (fun it => (it.line_number, it.service_description)) =
      if 3 ≤ (pyStrip p.2).length then some (p.1 + 1, pyStrip p.2) else none := by
  unfold parsePiece parseSingleService
  by_cases hs : pyStrip p.2 = ""
  · have h0 : (pyStrip p.2).length = 0 := by rw [hs]; rfl
    simp [hs, h0]
  · by_cases hlen : (pyStrip p.2).length < 3
    · have : ¬ (3 ≤ (pyStrip p.2).length) := by omega
      simp [hs, hlen, this]
    · have h3 : 3 ≤ (pyStrip p.2).length := by omega
      have hcond : ¬ (pyStrip p.2 = "" ∨ (pyStrip p.2).length < 3) := by
        push_neg
        exact ⟨hs, by omega⟩
      cases icd with
      | none => simp [hs, hcond, hlen, h3]
      | some code =>
        by_cases hc : code = "" <;> simp [hs, hcond, hlen, hc, h3]

/-- C7: the line-item parser turns the service text into exactly one line
item per final split segment whose stripped text has length at least 3
(shorter or empty segments are dropped), taking the stripped segment as the
description and numbering items by their 1-based position in the list of
split segments.  The segments themselves are produced by `splitServices`,
which normalizes newline runs and semicolons to commas, splits on commas
only at parenthesis depth zero, and further splits segments on the word
and unless they contain the phrase with and without. -/
theorem parseLineItems_segments (text : String) (icd desc : Option String) (conf : ℚ) :
    (parseLineItems text icd desc conf).map
        (fun it => (it.line_number, it.service_description)) =
      (splitServices text).enum.filterMap (fun p =>
        if 3 ≤ (pyStrip p.2).length then some (p.1 + 1, pyStrip p.2) else none) := by
  unfold parseLineItems
  by_cases htext : text = ""
  · subst htext
    have hempty : splitServices "" = [] := rfl
    simp [hempty]
  · simp only [htext, if_false]
    rw [List.map_filterMap]
    exact congrArg (fun f => List.filterMap f _)
      (funext (fun p => parsePiece_proj icd desc conf p))

/-- C10: laterality detection tests the left keyword list (which contains
the two-character string of an l followed by a space) before the right and
bilateral lists, so any segment whose lower-cased text contains that
substring is classified left — in particular any segment in which the word
bilateral is followed by a space; bilateral is only ever assigned when no
left and no right keyword occurs in the text. -/
theorem laterality_left_keyword_priority (s : String) :
    (∀ i it, parseSingleService s i = some it →
        it.laterality = detectLaterality (lowerString s)) ∧
    (containsStr (lowerString s) "l " = true →
        detectLaterality (lowerString s) = some "left") ∧
    (detectLaterality (lowerString s) = some "bilateral" →
        anyKeyword (lowerString s) leftKeywords = false ∧
        anyKeyword (lowerString s) rightKeywords = false) := by
  refine ⟨?_, ?_, ?_⟩
  · intro i it hit
    unfold parseSingleService at hit
    by_cases hcond : s = "" ∨ s.length < 3
    · simp [hcond] at hit
    · simp only [hcond, if_false, Option.some_inj] at hit
      rw [← hit]
  · intro h
    unfold detectLaterality
    have : anyKeyword (lowerString s) leftKeywords = true := by
      simp [anyKeyword, leftKeywords]
      exact Or.inr (Or.inl h)
    simp [this]
  · intro h
    unfold detectLaterality at h
    by_cases h1 : anyKeyword (lowerString s) leftKeywords
    · simp [h1] at h
    · by_cases h2 : anyKeyword (lowerString s) rightKeywords
      · simp [h1, h2] at h
      · exact ⟨by simp [h1], by simp [h2]⟩

/-- C10 witness: the segment bilateral knee contains an l followed by a
space, so it is classified left, not bilateral. -/
theorem laterality_left_keyword_priority_witness :
    detectLaterality (lowerString "bilateral knee") = some "left" :=
  (laterality_left_keyword_priority "bilateral knee").2.1 (by decide)

/-!
## LLM extraction results

From `services/extraction_service.py`.  An `ExtractedField` is a value with
a confidence score; an `ExtractionResult` holds one optional field per name
in `_ALL_FIELDS`.  The decoded JSON response of the LLM is modelled as a
lookup function from field names to entries: a name maps to `none` both
when the key is absent and when its entry is falsy (the source guard
`field in data and data[field]`); `value` is modelled as an optional string
whose truthiness is emptiness (the JSON layer upstream of this dictionary
is not modelled).
-/

/-- A field extracted from the email with confidence score (`ExtractedField`
dataclass).  The confidence is documented as an integer from 0 to 100 but
the parser stores whatever integer the response carries. -/
structure ExtractedField where
  value : String
  confidence : Int
  source : String
  raw_match : Option String := none
  deriving DecidableEq, Repr

/-- One entry of the decoded JSON response. -/
structure JsonField where
  value : Option String := none
  confidence : Option Int := none
  source : Option String := none
  raw_match : Option String := none

/-- The decoded JSON response, as a lookup function. -/
def Data : Type := String → Option JsonField

/-- Drop a falsy (empty) string, modelling Python truthiness tests on
optional string values. -/
def truthyS (o : Option String) : Option String :=
  match o with
  | some v => if v = "" then none else some v
  | none => none

/-- Keep one field of the response when its entry has a truthy value
(loop body of the first loop in `_parse_extraction_response`): the
confidence defaults to 50 and the source to email_body via `dict.get`. -/
def keepField (d : Data) (f : String) : Option ExtractedField :=
  match d f with
  | some fd =>
    match truthyS fd.value with
    | some v =>
      some ({ value := v, confidence := fd.confidence.getD 50,
              source := fd.source.getD "email_body", raw_match := fd.raw_match })
    | none => none
  | none => none

/-- Extraction result (`ExtractionResult` dataclass in
`services/extraction_service.py`): one optional confidence-scored field per
extraction field name, in `_ALL_FIELDS` order. -/
structure ExtractionResult where
  referring_physician_name : Option ExtractedField := none
  referring_physician_npi : Option ExtractedField := none
  adjuster_name : Option ExtractedField := none
  adjuster_email : Option ExtractedField := none
  adjuster_phone : Option ExtractedField := none
  insurance_carrier : Option ExtractedField := none
  claim_number : Option ExtractedField := none
  jurisdiction_state : Option ExtractedField := none
  order_type : Option ExtractedField := none
  claimant_name : Option ExtractedField := none
  claimant_first_name : Option ExtractedField := none
  claimant_last_name : Option ExtractedField := none
  claimant_dob : Option ExtractedField := none
  claimant_phone : Option ExtractedField := none
  claimant_email : Option ExtractedField := none
  claimant_ssn : Option ExtractedField := none
  claimant_gender : Option ExtractedField := none
  claimant_address : Option ExtractedField := none
  claimant_address_1 : Option ExtractedField := none
  claimant_address_2 : Option ExtractedField := none
  claimant_city : Option ExtractedField := none
  claimant_state : Option ExtractedField := none
  claimant_zip : Option ExtractedField := none
  employer_name : Option ExtractedField := none
  employer_address : Option ExtractedField := none
  claimant_job_title : Option ExtractedField := none
  date_of_injury : Option ExtractedField := none
  body_parts : Option ExtractedField := none
  service_requested : Option ExtractedField := none
  authorization_number : Option ExtractedField := none
  icd10_code : Option ExtractedField := none
  icd10_description : Option ExtractedField := none
  suggested_providers : Option ExtractedField := none
  special_requirements : Option ExtractedField := none
  priority : Option ExtractedField := none
  notes : Option ExtractedField := none
  associated_procedure_code : Option ExtractedField := none
  validated_icd10 : Option ExtractedField := none
  icd10_category : Option ExtractedField := none
  icd10_body_region : Option ExtractedField := none
  deriving DecidableEq, Repr

/-- The `_ALL_FIELDS` list of the source, in order. -/
def allFieldNames : List String :=
  ["referring_physician_name",
   "referring_physician_npi",
   "adjuster_name",
   "adjuster_email",
   "adjuster_phone",
   "insurance_carrier",
   "claim_number",
   "jurisdiction_state",
   "order_type",
   "claimant_name",
   "claimant_first_name",
   "claimant_last_name",
   "claimant_dob",
   "claimant_phone",
   "claimant_email",
   "claimant_ssn",
   "claimant_gender",
   "claimant_address",
   "claimant_address_1",
   "claimant_address_2",
   "claimant_city",
   "claimant_state",
   "claimant_zip",
   "employer_name",
   "employer_address",
   "claimant_job_title",
   "date_of_injury",
   "body_parts",
   "service_requested",
   "authorization_number",
   "icd10_code",
   "icd10_description",
   "suggested_providers",
   "special_requirements",
   "priority",
   "notes",
   "associated_procedure_code",
   "validated_icd10",
   "icd10_category",
   "icd10_body_region"]

/-- Dynamic field access (`getattr(result, field)`) restricted to the
extraction field names. -/
def getField (r : ExtractionResult) : String → Option ExtractedField
  | "referring_physician_name" => r.referring_physician_name
  | "referring_physician_npi" => r.referring_physician_npi
  | "adjuster_name" => r.adjuster_name
  | "adjuster_email" => r.adjuster_email
  | "adjuster_phone" => r.adjuster_phone
  | "insurance_carrier" => r.insurance_carrier
  | "claim_number" => r.claim_number
  | "jurisdiction_state" => r.jurisdiction_state
  | "order_type" => r.order_type
  | "claimant_name" => r.claimant_name
  | "claimant_first_name" => r.claimant_first_name
  | "claimant_last_name" => r.claimant_last_name
  | "claimant_dob" => r.claimant_dob
  | "claimant_phone" => r.claimant_phone
  | "claimant_email" => r.claimant_email
  | "claimant_ssn" => r.claimant_ssn
  | "claimant_gender" => r.claimant_gender
  | "claimant_address" => r.claimant_address
  | "claimant_address_1" => r.claimant_address_1
  | "claimant_address_2" => r.claimant_address_2
  | "claimant_city" => r.claimant_city
  | "claimant_state" => r.claimant_state
  | "claimant_zip" => r.claimant_zip
  | "employer_name" => r.employer_name
  | "employer_address" => r.employer_address
  | "claimant_job_title" => r.claimant_job_title
  | "date_of_injury" => r.date_of_injury
  | "body_parts" => r.body_parts
  | "service_requested" => r.service_requested
  | "authorization_number" => r.authorization_number
  | "icd10_code" => r.icd10_code
  | "icd10_description" => r.icd10_description
  | "suggested_providers" => r.suggested_providers
  | "special_requirements" => r.special_requirements
  | "priority" => r.priority
  | "notes" => r.notes
  | "associated_procedure_code" => r.associated_procedure_code
  | "validated_icd10" => r.validated_icd10
  | "icd10_category" => r.icd10_category
  | "icd10_body_region" => r.icd10_body_region
  | _ => none

/-- First loop of `ExtractionService._parse_extraction_response`: every
field of `_ALL_FIELDS` whose entry in the decoded response has a truthy
value is kept, at the confidence given in the entry (default 50) and source
(default email_body). -/
def directParse (d : Data) : ExtractionResult where
  referring_physician_name := keepField d "referring_physician_name"
  referring_physician_npi := keepField d "referring_physician_npi"
  adjuster_name := keepField d "adjuster_name"
  adjuster_email := keepField d "adjuster_email"
  adjuster_phone := keepField d "adjuster_phone"
  insurance_carrier := keepField d "insurance_carrier"
  claim_number := keepField d "claim_number"
  jurisdiction_state := keepField d "jurisdiction_state"
  order_type := keepField d "order_type"
  claimant_name := keepField d "claimant_name"
  claimant_first_name := keepField d "claimant_first_name"
  claimant_last_name := keepField d "claimant_last_name"
  claimant_dob := keepField d "claimant_dob"
  claimant_phone := keepField d "claimant_phone"
  claimant_email := keepField d "claimant_email"
  claimant_ssn := keepField d "claimant_ssn"
  claimant_gender := keepField d "claimant_gender"
  claimant_address := keepField d "claimant_address"
  claimant_address_1 := keepField d "claimant_address_1"
  claimant_address_2 := keepField d "claimant_address_2"
  claimant_city := keepField d "claimant_city"
  claimant_state := keepField d "claimant_state"
  claimant_zip := keepField d "claimant_zip"
  employer_name := keepField d "employer_name"
  employer_address := keepField d "employer_address"
  claimant_job_title := keepField d "claimant_job_title"
  date_of_injury := keepField d "date_of_injury"
  body_parts := keepField d "body_parts"
  service_requested := keepField d "service_requested"
  authorization_number := keepField d "authorization_number"
  icd10_code := keepField d "icd10_code"
  icd10_description := keepField d "icd10_description"
  suggested_providers := keepField d "suggested_providers"
  special_requirements := keepField d "special_requirements"
  priority := keepField d "priority"
  notes := keepField d "notes"
  associated_procedure_code := keepField d "associated_procedure_code"
  validated_icd10 := keepField d "validated_icd10"
  icd10_category := keepField d "icd10_category"
  icd10_body_region := keepField d "icd10_body_region"


/-- The local `confidences` list of
`ExtractionResult.get_overall_confidence`: the loop over `_ALL_FIELDS`
collecting the confidence of every field that is present with positive
confidence. -/
def overallConfList (r : ExtractionResult) : List Int :=
  allFieldNames.filterMap (fun f =>
    match getField r f with
    | some e => if e.confidence > 0 then some e.confidence else none
    | none => none)

/-- Overall extraction confidence
(`ExtractionResult.get_overall_confidence`): the mean of the collected
confidences, and 0.0 when the list is empty.  Python float division is
modelled exactly in `Rat`. -/
def getOverallConfidence (r : ExtractionResult) : Rat :=
  if (overallConfList r).isEmpty then 0
  else (((overallConfList r).sum : Int) : Rat) / ((overallConfList r).length : Rat)

/-- The review flag computed by `EmailIngestionPipeline._process_email`:
the referral is created with `needs_human_review` set when
`extraction_confidence`, the value of `get_overall_confidence` on the
0 to 100 scale, is below the literal 0.8. -/
def needsHumanReviewFlag (r : ExtractionResult) : Bool :=
  decide (getOverallConfidence r < (4 : Rat) / 5)

/-!
## Name and address post-processing of the parsed response

The second and third blocks of `_parse_extraction_response`: derive
first/last name from a combined name at a 5-point confidence penalty, and
derive address components from a combined address at a 10-point penalty.
-/

/-- Split a character list at commas (`str.split(",")`), keeping empty
pieces. -/
def splitCommaGo (cur : List Char) : List Char → List (List Char)
  | [] => [cur.reverse]
  | c :: cs =>
    if c = ',' then cur.reverse :: splitCommaGo [] cs
    else splitCommaGo (c :: cur) cs

/-- ASCII letter test (the character class of letters in the state-and-zip
regex of `ExtractionService._parse_address`). -/
def isAsciiAlpha (c : Char) : Bool :=
  ('A' ≤ c && c ≤ 'Z') || ('a' ≤ c && c ≤ 'z')

/-- Word-character test (the regex word class, ASCII fragment) used by the
state-and-zip regex of `FieldTransformer.parse_address`. -/
def isWordChar (c : Char) : Bool := isAsciiAlpha c || c.isDigit || c = '_'

/-- Match five digits followed by an optional dash-and-four-digits group
(the ZIP part of both state-and-zip regexes, with greedy optional). -/
def digits5opt (cs : List Char) : Option (List Char) :=
  match cs with
  | a :: b :: c :: d :: e :: rest =>
    if [a, b, c, d, e].all Char.isDigit then
      match rest with
      | '-' :: w :: x :: y :: z :: _ =>
        if [w, x, y, z].all Char.isDigit then some [a, b, c, d, e, '-', w, x, y, z]
        else some [a, b, c, d, e]
      | _ => some [a, b, c, d, e]
    else none
  | _ => none

/-- Attempt the state-and-zip pattern at the head of the list: two
characters of class `cls`, whitespace (at least one character when
`needSpace` is true, matching the plus-quantifier of the FileMaker variant,
else any amount), then the ZIP group. -/
def matchStateZip (cls : Char → Bool) (needSpace : Bool) (cs : List Char) :
    Option (List Char × List Char) :=
  match cs with
  | c1 :: c2 :: rest =>
    if cls c1 && cls c2 then
      let spaceOk :=
        if needSpace then
          match rest with
          | r :: _ => isPySpace r
          | [] => false
        else true
      if spaceOk then
        match digits5opt (rest.dropWhile isPySpace) with
        | some zp => some ([c1, c2], zp)
        | none => none
      else none
    else none
  | _ => none

/-- Scan for the leftmost position where the state-and-zip pattern matches
(`re.search` semantics). -/
def searchStateZip (cls : Char → Bool) (needSpace : Bool) : List Char → Option (String × String)
  | [] => none
  | c :: rest =>
    match matchStateZip cls needSpace (c :: rest) with
    | some (st, zp) => some (st.asString, zp.asString)
    | none => searchStateZip cls needSpace rest

/-- Parsed address components (the dictionary returned by both
`parse_address` variants; an absent key is `none`). -/
structure AddrParsed where
  address_1 : Option String := none
  city : Option String := none
  state : Option String := none
  zip : Option String := none
  deriving DecidableEq, Repr

/-- Parse an address string into components
(`ExtractionService._parse_address`): split on commas and strip; the first
part is the address line, the second the city; the third part is scanned
for two letters and a 5-or-9-digit ZIP (any amount of space between,
letters upper-cased), and on regex failure the whole third part becomes the
state. -/
def parseAddressE (address : String) : AddrParsed :=
  if address = "" then {}
  else
    let parts := (splitCommaGo [] address.data).map pyStripL
    let a1 := (parts.get? 0).map List.asString
    let city := (parts.get? 1).map List.asString
    match parts.get? 2 with
    | none => { address_1 := a1, city := city }
    | some third =>
      let lastPart := pyStripL third
      match searchStateZip isAsciiAlpha false lastPart with
      | some (st, zp) =>
        { address_1 := a1, city := city, state := some (upperString st), zip := some zp }
      | none => { address_1 := a1, city := city, state := some lastPart.asString }

/-- Parse an address string into components
(`FieldTransformer.parse_address`): like the extraction variant, but the
regex requires at least one whitespace character before the ZIP, accepts any
word characters for the state and does not upper-case it. -/
def parseAddressFM (address : String) : AddrParsed :=
  if address = "" then {}
  else
    let parts := (splitCommaGo [] address.data).map pyStripL
    let a1 := (parts.get? 0).map List.asString
    let city := (parts.get? 1).map List.asString
    match parts.get? 2 with
    | none => { address_1 := a1, city := city }
    | some third =>
      match searchStateZip isWordChar true third with
      | some (st, zp) =>
        { address_1 := a1, city := city, state := some st, zip := some zp }
      | none => { address_1 := a1, city := city, state := some third.asString }

/-- Setter for the first-name field (keeps update terms small). -/
def setFirstName (r : ExtractionResult) (e : ExtractedField) : ExtractionResult :=
  { r with claimant_first_name := some e }

/-- Setter for the last-name field. -/
def setLastName (r : ExtractionResult) (e : ExtractedField) : ExtractionResult :=
  { r with claimant_last_name := some e }

/-- Setter for the address-line-1 field. -/
def setAddress1 (r : ExtractionResult) (e : ExtractedField) : ExtractionResult :=
  { r with claimant_address_1 := some e }

/-- Setter for the city field. -/
def setCity (r : ExtractionResult) (e : ExtractedField) : ExtractionResult :=
  { r with claimant_city := some e }

/-- Setter for the state field. -/
def setState (r : ExtractionResult) (e : ExtractedField) : ExtractionResult :=
  { r with claimant_state := some e }

/-- Setter for the zip field. -/
def setZip (r : ExtractionResult) (e : ExtractedField) : ExtractionResult :=
  { r with claimant_zip := some e }

/-- Name post-processing block of `_parse_extraction_response`: when a
combined name is present and no first name is, split it; non-empty parts
are stored at the combined-name confidence minus 5.  The split raises
(returns `none`) on a whitespace-only combined name. -/
def postName (r : ExtractionResult) : Option ExtractionResult :=
  match r.claimant_name, r.claimant_first_name with
  | some cn, none =>
    match splitNameE cn.value with
    | none => none
    | some (first, last) =>
      let mkField : String → ExtractedField := fun v =>
        { value := v, confidence := cn.confidence - 5,
          source := cn.source, raw_match := cn.raw_match }
      let r1 := if first = "" then r else setFirstName r (mkField first)
      let r2 := if last = "" then r1 else setLastName r1 (mkField last)
      some r2
  | _, _ => some r

/-- Address post-processing block of `_parse_extraction_response`: when a
combined address is present and no city is, parse it; each truthy parsed
component is stored (the state normalized) at the combined-address
confidence minus 10, overwriting any value the component already had. -/
def postAddress (r : ExtractionResult) : ExtractionResult :=
  match r.claimant_address, r.claimant_city with
  | some ca, none =>
    let parsed := parseAddressE ca.value
    let base := ca.confidence - 10
    let mkField : String → ExtractedField := fun v =>
      { value := v, confidence := base, source := ca.source, raw_match := ca.raw_match }
    let r1 :=
      match truthyS parsed.address_1 with
      | some a => setAddress1 r (mkField a)
      | none => r
    let r2 :=
      match truthyS parsed.city with
      | some c => setCity r1 (mkField c)
      | none => r1
    let r3 :=
      match truthyS parsed.state with
      | some st => setState r2 (mkField (normalizeState st))
      | none => r2
    let r4 :=
      match truthyS parsed.zip with
      | some z => setZip r3 (mkField z)
      | none => r3
    r4
  | _, _ => r

/-- Parse a decoded response into an extraction result
(`ExtractionService._parse_extraction_response` from the decoded dictionary
on): direct field parsing, then name post-processing, then address
post-processing.  `none` models the uncaught `IndexError` escaping from the
name split. -/
def parseExtractionResponse (d : Data) : Option ExtractionResult :=
  (postName (directParse d)).map postAddress

/-!
## FileMaker converter, address section

From `ExtractionToFileMakerConverter.convert` in
`services/filemaker_conversion.py`, the address block (explicit components
preferred, combined-address fallback only when the explicit address line is
missing, per-component never-overwrite guards, no confidence recorded for
fallback components).
-/

/-- Truthy value lookup: `_get_value` composed with the callers' Python
truthiness tests. -/
def getValueT (d : Data) (f : String) : Option String :=
  match d f with
  | some fd => truthyS fd.value
  | none => none

/-- Confidence lookup with default 0 (`_get_confidence`). -/
def getConf0 (d : Data) (f : String) : Int :=
  match d f with
  | some fd => fd.confidence.getD 0
  | none => 0

/-- The address fields of `FileMakerExtraction` together with the address
entries of its `confidence_scores` dictionary (kept as an ordered list). -/
structure FMAddress where
  patient_address_1 : Option String := none
  patient_address_2 : Option String := none
  patient_address_city : Option String := none
  patient_address_state : Option String := none
  patient_address_zip : Option String := none
  confidence_scores : List (String × Int) := []
  deriving DecidableEq, Repr

/-- First half of the address block of
`ExtractionToFileMakerConverter.convert`: store each truthy explicit
component (state and ZIP normalized) together with its confidence score. -/
def convertAddressExplicit (d : Data) : FMAddress :=
  let fm0 : FMAddress := {}
  let fm1 :=
    match getValueT d "claimant_address_1" with
    | some a =>
      { fm0 with
        patient_address_1 := some a,
        confidence_scores :=
          fm0.confidence_scores ++ [("address_1", getConf0 d "claimant_address_1")] }
    | none => fm0
  let fm2 :=
    match getValueT d "claimant_address_2" with
    | some a => { fm1 with patient_address_2 := some a }
    | none => fm1
  let fm3 :=
    match getValueT d "claimant_city" with
    | some c =>
      { fm2 with
        patient_address_city := some c,
        confidence_scores :=
          fm2.confidence_scores ++ [("city", getConf0 d "claimant_city")] }
    | none => fm2
  let fm4 :=
    match getValueT d "claimant_state" with
    | some st =>
      { fm3 with
        patient_address_state := some (normalizeState st),
        confidence_scores :=
          fm3.confidence_scores ++ [("state", getConf0 d "claimant_state")] }
    | none => fm3
  match getValueT d "claimant_zip" with
  | some z =>
    { fm4 with
      patient_address_zip := some (normalizeZip z),
      confidence_scores :=
        fm4.confidence_scores ++ [("zip", getConf0 d "claimant_zip")] }
  | none => fm4

/-- Second half of the address block of
`ExtractionToFileMakerConverter.convert`: only when the combined address is
truthy and no address line was stored, parse the combined address and fill
exactly the components that are still missing, recording no confidences for
them. -/
def convertAddress (d : Data) : FMAddress :=
  let fm5 := convertAddressExplicit d
  match getValueT d "claimant_address", fm5.patient_address_1 with
  | some fa, none =>
    let parsed := parseAddressFM fa
    let g1 :=
      match truthyS parsed.address_1, fm5.patient_address_1 with
      | some a, none => { fm5 with patient_address_1 := some a }
      | _, _ => fm5
    let g2 :=
      match truthyS parsed.city, g1.patient_address_city with
      | some c, none => { g1 with patient_address_city := some c }
      | _, _ => g1
    let g3 :=
      match truthyS parsed.state, g2.patient_address_state with
      | some st, none => { g2 with patient_address_state := some (normalizeState st) }
      | _, _ => g2
    let g4 :=
      match truthyS parsed.zip, g3.patient_address_zip with
      | some z, none => { g3 with patient_address_zip := some (normalizeZip z) }
      | _, _ => g3
    g4
  | _, _ => fm5

/-!
### C1 and C5
-/

/-- Confidences of the fields that are present with positive confidence,
written as stated by the amended claim (present fields, filtered to
positive confidence). -/
def presentPositiveConfidences (r : ExtractionResult) : List Int :=
  ((allFieldNames.filterMap (fun f => getField r f)).filter
    (fun e => 0 < e.confidence)).map (fun e => e.confidence)

/-- Collecting confidences field by field agrees with filtering the present
fields to positive confidence. -/
lemma filterMap_confidences (r : ExtractionResult) (l : List String) :
    l.filterMap (fun f =>
        match getField r f with
        | some e => if e.confidence > 0 then some e.confidence else none
        | none => none) =
      ((l.filterMap (fun f => getField r f)).filter
        (fun e => 0 < e.confidence)).map (fun e => e.confidence) := by
  induction l with
  | nil => rfl
  | cons f t ih =>
    cases hf : getField r f with
    | none => simpa [List.filterMap_cons, hf] using ih
    | some e =>
      by_cases hc : 0 < e.confidence
      · simpa [List.filterMap_cons, hf, hc] using ih
      · simpa [List.filterMap_cons, hf, hc] using ih

/-- Sum bound: a list of integers that are all at least one sums to at
least its length. -/
lemma length_le_sum_of_one_le (l : List Int) (h : ∀ c ∈ l, 1 ≤ c) :
    (l.length : Int) ≤ l.sum := by
  induction l with
  | nil => simp
  | cons c t ih =>
    have hc := h c (List.mem_cons_self c t)
    have ht := ih (fun x hx => h x (List.mem_cons_of_mem c hx))
    simp only [List.length_cons, List.sum_cons]
    push_cast
    omega

/-- C1 (amended): the overall extraction confidence is the arithmetic mean
of the confidences of the fields present with positive confidence (0.0 when
there is none; a present field with confidence 0 does not enter the mean),
and the ingestion pipeline sets `needs_human_review` exactly when this 0 to
100 scale value is below the literal 0.8 — which, confidences being
integers, happens exactly when no field with positive confidence is
present. -/
theorem overallConfidence_mean_and_review (r : ExtractionResult) :
    getOverallConfidence r =
      (if presentPositiveConfidences r = [] then 0
       else ((presentPositiveConfidences r).sum : Rat) /
         ((presentPositiveConfidences r).length : Rat)) ∧
    (needsHumanReviewFlag r = true ↔ presentPositiveConfidences r = []) := by
  have hlist : overallConfList r = presentPositiveConfidences r := by
    unfold overallConfList presentPositiveConfidences
    exact filterMap_confidences r allFieldNames
  have hmean : getOverallConfidence r =
      (if presentPositiveConfidences r = [] then 0
       else ((presentPositiveConfidences r).sum : Rat) /
         ((presentPositiveConfidences r).length : Rat)) := by
    unfold getOverallConfidence
    rw [hlist]
    simp [List.isEmpty_iff]
  refine ⟨hmean, ?_⟩
  unfold needsHumanReviewFlag
  rw [show getOverallConfidence r =
      (if presentPositiveConfidences r = [] then 0
       else ((presentPositiveConfidences r).sum : Rat) /
         ((presentPositiveConfidences r).length : Rat)) from hmean]
  by_cases hnil : presentPositiveConfidences r = []
  · simp only [hnil, if_true, iff_true, decide_eq_true_eq]
    norm_num
  · simp only [hnil, if_false, iff_false, decide_eq_true_eq]
    have hone : ∀ c ∈ presentPositiveConfidences r, 1 ≤ c := by
      intro c hc
      unfold presentPositiveConfidences at hc
      rcases List.mem_map.mp hc with ⟨e, he, hce⟩
      have hpos := (List.mem_filter.mp he).2
      simp only [decide_eq_true_eq] at hpos
      omega
    have hlen : 0 < (presentPositiveConfidences r).length :=
      List.length_pos.mpr hnil
    have hsum : ((presentPositiveConfidences r).length : Int) ≤
        (presentPositiveConfidences r).sum :=
      length_le_sum_of_one_le _ hone
    have hlenq : (0 : Rat) < ((presentPositiveConfidences r).length : Rat) := by
      exact_mod_cast hlen
    have hge : (1 : Rat) ≤ ((presentPositiveConfidences r).sum : Rat) /
        ((presentPositiveConfidences r).length : Rat) := by
      rw [le_div_iff₀ hlenq]
      rw [one_mul]
      exact_mod_cast hsum
    intro hlt
    have hc1 : (4 : Rat) / 5 < 1 := by norm_num
    linarith

/-- Extraction result with a single present field at confidence 50, the
counterexample input for C1. -/
def singleField50 : ExtractionResult :=
  { claim_number := some { value := "WC-2025-001234", confidence := 50, source := "email_body" } }

/-- C1 counterexample: a result whose only present field has confidence 50
has overall confidence 50, which is below 80 on the 0 to 100 scale on which
field confidences are recorded, yet the pipeline leaves
`needs_human_review` false, because the code compares the 0 to 100 scale
mean against the literal 0.8. -/
theorem overallConfidence_review_scale_mismatch :
    getOverallConfidence singleField50 = 50 ∧
    getOverallConfidence singleField50 < 80 ∧
    needsHumanReviewFlag singleField50 = false ∧
    ¬ (needsHumanReviewFlag singleField50 = true ↔
        getOverallConfidence singleField50 < 80) := by
  have hl : overallConfList singleField50 = [50] := by decide
  have h50 : getOverallConfidence singleField50 = 50 := by
    unfold getOverallConfidence
    rw [hl]
    norm_num
  have hflag : needsHumanReviewFlag singleField50 = false := by
    unfold needsHumanReviewFlag
    rw [h50]
    norm_num
  refine ⟨h50, by rw [h50]; norm_num, hflag, ?_⟩
  intro hiff
  have htrue : needsHumanReviewFlag singleField50 = true :=
    hiff.mpr (by rw [h50]; norm_num)
  rw [hflag] at htrue
  cases htrue

/-- C1 amended witness: on the concrete single-field result the review flag
is false because a field with positive confidence is present. -/
theorem overallConfidence_mean_and_review_witness :
    needsHumanReviewFlag singleField50 = false := by
  have h := (overallConfidence_mean_and_review singleField50).2
  cases hf : needsHumanReviewFlag singleField50 with
  | false => rfl
  | true => exact absurd (h.mp hf) (by decide)

/-- Characterization of the field-keeping loop body: a kept field comes
from an entry with a truthy value and carries exactly the confidence of
that entry, defaulting to 50 only when the entry has no confidence key. -/
lemma keepField_spec (d : Data) (f : String) (e : ExtractedField)
    (h : keepField d f = some e) :
    ∃ fd, d f = some fd ∧ fd.value = some e.value ∧ e.value ≠ "" ∧
      e.confidence = fd.confidence.getD 50 := by
  unfold keepField at h
  cases hd : d f with
  | none => rw [hd] at h; cases h
  | some fd =>
    rw [hd] at h
    dsimp only at h
    cases hv : truthyS fd.value with
    | none => rw [hv] at h; cases h
    | some v =>
      rw [hv] at h
      injection h with h
      subst h
      refine ⟨fd, rfl, ?_, ?_, rfl⟩
      · unfold truthyS at hv
        cases hfv : fd.value with
        | none => rw [hfv] at hv; cases hv
        | some w =>
          rw [hfv] at hv
          dsimp only at hv
          by_cases hw : w = ""
          · rw [if_pos hw] at hv; cases hv
          · rw [if_neg hw] at hv
            injection hv with hv
            rw [hv]
      · unfold truthyS at hv
        cases hfv : fd.value with
        | none => rw [hfv] at hv; cases hv
        | some w =>
          rw [hfv] at hv
          dsimp only at hv
          by_cases hw : w = ""
          · rw [if_pos hw] at hv; cases hv
          · rw [if_neg hw] at hv
            injection hv with hv
            rw [← hv]
            exact hw

/-- C5 (amended): the response parser keeps every field of `_ALL_FIELDS`
whose entry has a truthy value, at exactly the confidence stated in the
entry (defaulting to 50 only when the confidence key is missing); no floor
of 50 is enforced — the sub-50 cutoff is only an instruction to the LLM in
the prompt text, so a present field can carry any confidence. -/
theorem directParse_keeps_any_confidence (d : Data) (f : String)
    (hf : f ∈ allFieldNames) (e : ExtractedField)
    (h : getField (directParse d) f = some e) :
    ∃ fd, d f = some fd ∧ fd.value = some e.value ∧ e.value ≠ "" ∧
      e.confidence = fd.confidence.getD 50 := by
  have hred : getField (directParse d) f = keepField d f := by
    fin_cases hf <;> rfl
  rw [hred] at h
  exact keepField_spec d f e h

/-- Decoded response carrying a single field with a truthy value at
confidence 10, the counterexample input for C5. -/
def lowConfData : Data := fun f =>
  if f = "claim_number" then
    some { value := some "WC-1", confidence := some 10, source := some "email_body" }
  else none

/-- C5 counterexample: an entry with confidence 10 (below 50) is kept by
the converter, not treated as absent. -/
theorem lowConfidence_field_kept :
    (parseExtractionResponse lowConfData).map (fun r => r.claim_number) =
      some (some { value := "WC-1", confidence := 10,
                   source := "email_body", raw_match := none }) ∧
    (10 : Int) < 50 := by
  exact ⟨by decide, by decide⟩

/-- C5 amended witness: the amended theorem applied to the concrete low
confidence response recovers the entry with confidence 10. -/
theorem directParse_keeps_any_confidence_witness :
    ∃ fd, lowConfData "claim_number" = some fd ∧
      fd.value = some "WC-1" ∧ ("WC-1" : String) ≠ "" ∧
      (10 : Int) = fd.confidence.getD 50 :=
  directParse_keeps_any_confidence lowConfData "claim_number" (by decide)
    { value := "WC-1", confidence := 10, source := "email_body", raw_match := none }
    (by decide)

/-!
### C6
-/

/-- Confidence entries of the address block as the amended claim describes
them: one entry per truthy explicit component, and none for
fallback-derived components. -/
def explicitAddressScores (d : Data) : List (String × Int) :=
  (match getValueT d "claimant_address_1" with
   | some _ => [("address_1", getConf0 d "claimant_address_1")]
   | none => []) ++
  (match getValueT d "claimant_city" with
   | some _ => [("city", getConf0 d "claimant_city")]
   | none => []) ++
  (match getValueT d "claimant_state" with
   | some _ => [("state", getConf0 d "claimant_state")]
   | none => []) ++
  (match getValueT d "claimant_zip" with
   | some _ => [("zip", getConf0 d "claimant_zip")]
   | none => [])

/-- The explicit half of the FileMaker address block stores exactly the
truthy explicit components, state and ZIP normalized, with their
confidence entries. -/
lemma convertAddressExplicit_spec (d : Data) :
    (convertAddressExplicit d).patient_address_1 = getValueT d "claimant_address_1" ∧
    (convertAddressExplicit d).patient_address_city = getValueT d "claimant_city" ∧
    (convertAddressExplicit d).patient_address_state =
      (getValueT d "claimant_state").map normalizeState ∧
    (convertAddressExplicit d).patient_address_zip =
      (getValueT d "claimant_zip").map normalizeZip ∧
    (convertAddressExplicit d).confidence_scores = explicitAddressScores d := by
  unfold convertAddressExplicit explicitAddressScores
  cases h1 : getValueT d "claimant_address_1" <;>
    cases h2 : getValueT d "claimant_address_2" <;>
      cases h3 : getValueT d "claimant_city" <;>
        cases h4 : getValueT d "claimant_state" <;>
          cases h5 : getValueT d "claimant_zip" <;>
            simp

/-- Projection lemmas for the setters, used to push field reads through
the post-processing updates. -/
@[simp] lemma setAddress1_a1 (r : ExtractionResult) (e : ExtractedField) :
    (setAddress1 r e).claimant_address_1 = some e := rfl

@[simp] lemma setAddress1_city (r : ExtractionResult) (e : ExtractedField) :
    (setAddress1 r e).claimant_city = r.claimant_city := rfl

@[simp] lemma setAddress1_state (r : ExtractionResult) (e : ExtractedField) :
    (setAddress1 r e).claimant_state = r.claimant_state := rfl

@[simp] lemma setAddress1_zip (r : ExtractionResult) (e : ExtractedField) :
    (setAddress1 r e).claimant_zip = r.claimant_zip := rfl

@[simp] lemma setCity_a1 (r : ExtractionResult) (e : ExtractedField) :
    (setCity r e).claimant_address_1 = r.claimant_address_1 := rfl

@[simp] lemma setCity_city (r : ExtractionResult) (e : ExtractedField) :
    (setCity r e).claimant_city = some e := rfl

@[simp] lemma setCity_state (r : ExtractionResult) (e : ExtractedField) :
    (setCity r e).claimant_state = r.claimant_state := rfl

@[simp] lemma setCity_zip (r : ExtractionResult) (e : ExtractedField) :
    (setCity r e).claimant_zip = r.claimant_zip := rfl

@[simp] lemma setState_a1 (r : ExtractionResult) (e : ExtractedField) :
    (setState r e).claimant_address_1 = r.claimant_address_1 := rfl

@[simp] lemma setState_city (r : ExtractionResult) (e : ExtractedField) :
    (setState r e).claimant_city = r.claimant_city := rfl

@[simp] lemma setState_state (r : ExtractionResult) (e : ExtractedField) :
    (setState r e).claimant_state = some e := rfl

@[simp] lemma setState_zip (r : ExtractionResult) (e : ExtractedField) :
    (setState r e).claimant_zip = r.claimant_zip := rfl

@[simp] lemma setZip_a1 (r : ExtractionResult) (e : ExtractedField) :
    (setZip r e).claimant_address_1 = r.claimant_address_1 := rfl

@[simp] lemma setZip_city (r : ExtractionResult) (e : ExtractedField) :
    (setZip r e).claimant_city = r.claimant_city := rfl

@[simp] lemma setZip_state (r : ExtractionResult) (e : ExtractedField) :
    (setZip r e).claimant_state = r.claimant_state := rfl

@[simp] lemma setZip_zip (r : ExtractionResult) (e : ExtractedField) :
    (setZip r e).claimant_zip = some e := rfl

/-- C6 (amended, helper shape): value stored for a fallback-derived
component, or the previous value when the parsed component is falsy. -/
def fallbackField (ca : ExtractedField) (parsedComp : Option String)
    (old : Option ExtractedField) : Option ExtractedField :=
  match truthyS parsedComp with
  | some v =>
    some { value := v, confidence := ca.confidence - 10,
           source := ca.source, raw_match := ca.raw_match }
  | none => old

/-- C6 (amended): address handling in the two converters.  Extraction-side
(`_parse_extraction_response`): the combined address is parsed as a
fallback exactly when it is present and the city component is missing; each
truthy parsed component is then stored at the combined-address confidence
minus 10 — the city only fills the missing slot, but parsed address line,
state and ZIP overwrite explicitly extracted components rather than
preserving them.  FileMaker-side (`convert`): explicit components are
preferred (state and ZIP normalized), the fallback runs only when the
explicit address line is missing, never overwrites an already-populated
component, and records no confidence for fallback-derived components (so no
10-point penalty is tracked there). -/
theorem addressFallback_amended :
    (∀ (r : ExtractionResult) (ca : ExtractedField),
      r.claimant_address = some ca → r.claimant_city = none →
      (postAddress r).claimant_address_1 =
          fallbackField ca (parseAddressE ca.value).address_1 r.claimant_address_1 ∧
      (postAddress r).claimant_city =
          fallbackField ca (parseAddressE ca.value).city none ∧
      (postAddress r).claimant_state =
          (match truthyS (parseAddressE ca.value).state with
           | some st =>
             some { value := normalizeState st, confidence := ca.confidence - 10,
                    source := ca.source, raw_match := ca.raw_match }
           | none => r.claimant_state) ∧
      (postAddress r).claimant_zip =
          fallbackField ca (parseAddressE ca.value).zip r.claimant_zip) ∧
    (∀ r : ExtractionResult,
      r.claimant_address = none ∨ r.claimant_city ≠ none → postAddress r = r) ∧
    (∀ d : Data,
      (convertAddress d).patient_address_1 =
          (match getValueT d "claimant_address_1", getValueT d "claimant_address" with
           | none, some fa => truthyS (parseAddressFM fa).address_1
           | a1, _ => a1) ∧
      (convertAddress d).patient_address_city =
          (match getValueT d "claimant_address_1", getValueT d "claimant_address" with
           | none, some fa =>
             (match getValueT d "claimant_city" with
              | some c => some c
              | none => truthyS (parseAddressFM fa).city)
           | _, _ => getValueT d "claimant_city") ∧
      (convertAddress d).patient_address_state =
          (match getValueT d "claimant_address_1", getValueT d "claimant_address" with
           | none, some fa =>
             (match getValueT d "claimant_state" with
              | some st => some (normalizeState st)
              | none => (truthyS (parseAddressFM fa).state).map normalizeState)
           | _, _ => (getValueT d "claimant_state").map normalizeState) ∧
      (convertAddress d).patient_address_zip =
          (match getValueT d "claimant_address_1", getValueT d "claimant_address" with
           | none, some fa =>
             (match getValueT d "claimant_zip" with
              | some z => some (normalizeZip z)
              | none => (truthyS (parseAddressFM fa).zip).map normalizeZip)
           | _, _ => (getValueT d "claimant_zip").map normalizeZip) ∧
      (convertAddress d).confidence_scores = explicitAddressScores d) := by
  refine ⟨?_, ?_, ?_⟩
  · intro r ca hca hcity
    unfold postAddress fallbackField
    rw [hca, hcity]
    dsimp only
    cases hp1 : truthyS (parseAddressE ca.value).address_1 <;>
      cases hp2 : truthyS (parseAddressE ca.value).city <;>
        cases hp3 : truthyS (parseAddressE ca.value).state <;>
          cases hp4 : truthyS (parseAddressE ca.value).zip <;>
            simp [hcity]
  · intro r hr
    unfold postAddress
    rcases hr with hr | hr
    · rw [hr]
    · cases ha : r.claimant_address with
      | none => rfl
      | some ca =>
        cases hc : r.claimant_city with
        | none => exact absurd hc hr
        | some c => rfl
  · intro d
    obtain ⟨he1, he2, he3, he4, he5⟩ := convertAddressExplicit_spec d
    unfold convertAddress
    cases h1 : getValueT d "claimant_address_1" with
    | some v =>
      cases h6 : getValueT d "claimant_address" <;>
        simp [he1, h1, he2, he3, he4, he5]
    | none =>
      cases h6 : getValueT d "claimant_address" with
      | none => simp [he1, h1, he2, he3, he4, he5, h6]
      | some fa =>
        cases hp1 : truthyS (parseAddressFM fa).address_1 <;>
          cases hp2 : truthyS (parseAddressFM fa).city <;>
            cases hp3 : truthyS (parseAddressFM fa).state <;>
              cases hp4 : truthyS (parseAddressFM fa).zip <;>
                cases h3 : getValueT d "claimant_city" <;>
                  cases h4 : getValueT d "claimant_state" <;>
                    cases h5 : getValueT d "claimant_zip" <;>
                      simp [he1, h1, he2, he3, he4, he5, hp1, hp2, hp3, hp4, h3, h4, h5]

/-- Decoded response with explicit address line, state and ZIP, a combined
address, and no city: the counterexample input for C6. -/
def explicitOverwriteData : Data := fun f =>
  if f = "claimant_address_1" then
    some { value := some "9 Explicit St", confidence := some 90, source := some "email_body" }
  else if f = "claimant_state" then
    some { value := some "TX", confidence := some 90, source := some "email_body" }
  else if f = "claimant_zip" then
    some { value := some "99999", confidence := some 90, source := some "email_body" }
  else if f = "claimant_address" then
    some { value := some "123 Main St, Springfield, IL 62701", confidence := some 80,
           source := some "email_body" }
  else none

/-- C6 counterexample: with an explicit state TX at confidence 90 (and
explicit address line and ZIP) but no city, the extraction-side fallback
parses the combined address and OVERWRITES the explicit state with IL at
confidence 70, the explicit address line with the parsed one, and the
explicit ZIP — refuting the claim that a component already populated from
an explicit field is never overwritten by a fallback value. -/
theorem addressFallback_overwrites_explicit :
    (directParse explicitOverwriteData).claimant_state.map
        (fun e => (e.value, e.confidence)) = some ("TX", 90) ∧
    (directParse explicitOverwriteData).claimant_address_1.map
        (fun e => (e.value, e.confidence)) = some ("9 Explicit St", 90) ∧
    (parseExtractionResponse explicitOverwriteData).map
        (fun r => r.claimant_state.map (fun e => (e.value, e.confidence))) =
      some (some ("IL", 70)) ∧
    (parseExtractionResponse explicitOverwriteData).map
        (fun r => r.claimant_address_1.map (fun e => (e.value, e.confidence))) =
      some (some ("123 Main St", 70)) ∧
    (parseExtractionResponse explicitOverwriteData).map
        (fun r => r.claimant_zip.map (fun e => (e.value, e.confidence))) =
      some (some ("62701", 70)) := by
  refine ⟨by decide, by decide, by decide, by decide, by decide⟩


/-- C6 amended witness: applying the amended theorem to the concrete
overwrite input shows the state component after post-processing is the
parsed IL at confidence 70. -/
theorem addressFallback_amended_witness :
    (postAddress (directParse explicitOverwriteData)).claimant_state =
      some { value := "IL", confidence := 70, source := "email_body", raw_match := none } := by
  have h := (addressFallback_amended.1 (directParse explicitOverwriteData)
      { value := "123 Main St, Springfield, IL 62701", confidence := 80,
        source := "email_body", raw_match := none }
      (by decide) (by decide)).2.2.1
  rw [h]
  decide

/-!
## Workflow and queue engine

From `WorkflowService` in `services/workflow_service.py`.  The three queues
are the fixed configurations created by `seed_queues` (extraction, intake,
care coordination, with SLAs of 15, 60 and 240 minutes), modelled by their
ids 1, 2 and 3.  A state holds the queue-item, email and referral tables;
`datetime.utcnow()` is modelled by a logical clock that advances once per
engine call (the stamps within one call share the same instant).
`session.query(...).first()` without an ordering returns the first row in
insertion order, modelled by list order.  Methods that receive an ORM
object mutate the corresponding row when it exists; line-item persistence,
notes text and logging do not affect the queue state beyond what is
embedded.
-/

/-- Email status enum (`EmailStatus`). -/
inductive EmailStatus where
  | received
  | pending_extraction
  | extraction_in_progress
  | extraction_complete
  | extraction_failed
  | processed
  deriving DecidableEq, Repr

/-- Referral status enum (`ReferralStatus`). -/
inductive ReferralStatus where
  | draft
  | pending_validation
  | validated
  | pending_scheduling
  | scheduled
  | in_progress
  | completed
  | submitted_to_filemaker
  | rejected
  | on_hold
  deriving DecidableEq, Repr

/-- Queue-item status enum (`QueueItemStatus`). -/
inductive QueueItemStatus where
  | pending
  | in_progress
  | completed
  | skipped
  | failed
  deriving DecidableEq, Repr

/-- Priority enum (`Priority`). -/
inductive Priority where
  | low
  | medium
  | high
  | urgent
  deriving DecidableEq, Repr

/-- Queue item row (`QueueItem` model). -/
structure QueueItem where
  id : Nat
  queue_id : Nat
  email_id : Option Nat := none
  referral_id : Option Nat := none
  status : QueueItemStatus := .pending
  priority : Priority := .medium
  assigned_to : Option String := none
  assigned_at : Option Nat := none
  started_at : Option Nat := none
  completed_at : Option Nat := none
  entered_queue_at : Nat := 0
  due_at : Option Nat := none
  attempt_count : Nat := 0
  last_error : Option String := none
  notes : Option String := none
  deriving DecidableEq, Repr

/-- Email row (the `Email` fields the engine touches). -/
structure Email where
  id : Nat
  subject : Option String := none
  status : EmailStatus := .received
  extraction_attempts : Nat := 0
  last_extraction_error : Option String := none
  processed_at : Option Nat := none
  received_at : Option Nat := none
  deriving DecidableEq, Repr

/-- Referral row (the `Referral` fields the engine touches). -/
structure Referral where
  id : Nat
  status : ReferralStatus := .draft
  priority : Priority := .medium
  needs_human_review : Bool := true
  rejection_reason : Option String := none
  email_id : Option Nat := none
  received_at : Option Nat := none
  validated_at : Option Nat := none
  scheduled_at : Option Nat := none
  completed_at : Option Nat := none
  deriving DecidableEq, Repr

/-- The shared transactional store as the engine sees it. -/
structure WorkflowState where
  items : List QueueItem := []
  emails : List Email := []
  referrals : List Referral := []
  nextItemId : Nat := 1
  now : Nat := 0
  deriving DecidableEq, Repr

/-- The extraction queue id (`seed_queues`, sort order 1, SLA 15). -/
def extractionQueueId : Nat := 1

/-- The intake queue id (`seed_queues`, sort order 2, SLA 60). -/
def intakeQueueId : Nat := 2

/-- The care-coordination queue id (`seed_queues`, sort order 3, SLA 240). -/
def careCoordinationQueueId : Nat := 3

/-- Non-terminal statuses (`pending` or `in_progress`). -/
def nonterminalB (st : QueueItemStatus) : Bool :=
  st == .pending || st == .in_progress

/-- Update the first list element satisfying `p` by `f` (the row that an
unordered `.first()` query returns, then mutated in place). -/
def updateFirst (p : QueueItem → Bool) (f : QueueItem → QueueItem) :
    List QueueItem → List QueueItem
  | [] => []
  | x :: xs => if p x then f x :: xs else x :: updateFirst p f xs

/-- Look up an email row by id. -/
def lookupEmail (s : WorkflowState) (emailId : Nat) : Option Email :=
  s.emails.find? (fun em => em.id == emailId)

/-- Look up a referral row by id. -/
def lookupReferral (s : WorkflowState) (referralId : Nat) : Option Referral :=
  s.referrals.find? (fun rf => rf.id == referralId)

/-- Mutate the email row with the given id, when present. -/
def mapEmailRow (l : List Email) (emailId : Nat) (f : Email → Email) : List Email :=
  l.map (fun em => if em.id == emailId then f em else em)

/-- Mutate the referral row with the given id, when present. -/
def mapReferralRow (l : List Referral) (referralId : Nat) (f : Referral → Referral) :
    List Referral :=
  l.map (fun rf => if rf.id == referralId then f rf else rf)

/-- Insert the referral row when missing, else mutate it
(`session.add(referral)` on the object passed to the completion call). -/
def upsertReferralRow (l : List Referral) (referralId : Nat) (f : Referral → Referral) :
    List Referral :=
  if l.any (fun rf => rf.id == referralId) then mapReferralRow l referralId f
  else l ++ [f { id := referralId }]

/-- Priority from the email subject
(`WorkflowService._determine_email_priority`): urgency keywords in the
lower-cased subject; a missing (or falsy empty) subject gives medium. -/
def determinePriority (subject : Option String) : Priority :=
  match subject with
  | none => .medium
  | some subj =>
    if subj = "" then .medium
    else
      let lowered := lowerString subj
      if ["urgent", "asap", "rush", "emergency"].any (fun kw => containsStr lowered kw) then
        .urgent
      else if ["high priority", "important"].any (fun kw => containsStr lowered kw) then
        .high
      else .medium

/-- Predicate for the current queue item of a referral in a queue
(`get_current_queue_item`): same queue, same referral, non-terminal. -/
def currentPred (referralId queueId : Nat) (it : QueueItem) : Bool :=
  it.queue_id == queueId && it.referral_id == some referralId && nonterminalB it.status

/-- The current queue item for a referral in a queue
(`WorkflowService.get_current_queue_item`; the seeded queue always
exists). -/
def getCurrentQueueItem (s : WorkflowState) (referralId queueId : Nat) :
    Option QueueItem :=
  s.items.find? (currentPred referralId queueId)

/-- Fields written on a successful claim (both claim methods): status
in-progress, assignee, and assignment/start stamps. -/
def claimUpdate (user : String) (t : Nat) (j : QueueItem) : QueueItem :=
  { j with status := .in_progress, assigned_to := some user,
           assigned_at := some t, started_at := some t }

/-- Predicate of the release query (`release_queue_item`): the item with
the given id, assigned to the caller, currently in progress. -/
def releasePred (queueItemId : Nat) (user : String) (j : QueueItem) : Bool :=
  j.id == queueItemId && j.assigned_to == some user && j.status == .in_progress

/-- Fields cleared on release: back to pending, assignment fields
cleared. -/
def releaseReset (j : QueueItem) : QueueItem :=
  { j with status := .pending, assigned_to := none,
           assigned_at := none, started_at := none }

/-- Query predicate of `start_extraction`: the first pending item of the
email (note: no queue filter in the source). -/
def startPred (emailId : Nat) (it : QueueItem) : Bool :=
  it.email_id == some emailId && it.status == .pending

/-- Query predicate of `fail_extraction` and of the completion call: the
first in-progress item of the email. -/
def inProgressPred (emailId : Nat) (it : QueueItem) : Bool :=
  it.email_id == some emailId && it.status == .in_progress

/-- Row update of `start_extraction`. -/
def startUpdate (t : Nat) (it : QueueItem) : QueueItem :=
  { it with status := .in_progress, started_at := some t,
            attempt_count := it.attempt_count + 1 }

/-- Row update of `fail_extraction`. -/
def failUpdate (t : Nat) (error : String) (it : QueueItem) : QueueItem :=
  { it with status := .failed, last_error := some error, completed_at := some t }

/-- Row update completing a queue item. -/
def completeUpdate (t : Nat) (it : QueueItem) : QueueItem :=
  { it with status := .completed, completed_at := some t }

/-- Row update of `reject_referral` on the intake item: completion plus the
rejection note. -/
def rejectUpdate (t : Nat) (note : String) (it : QueueItem) : QueueItem :=
  { it with status := .completed, completed_at := some t, notes := some note }

/-- The pending extraction queue item created by
`queue_email_for_extraction`. -/
def newExtractionItem (s : WorkflowState) (emailId : Nat) : QueueItem :=
  { id := s.nextItemId,
    queue_id := extractionQueueId,
    email_id := some emailId,
    status := .pending,
    priority :=
      match lookupEmail s emailId with
      | some em => determinePriority em.subject
      | none => .medium,
    entered_queue_at := s.now,
    due_at := some (s.now + 15) }

/-- The pending intake queue item created by the completion call. -/
def newIntakeItem (s : WorkflowState) (referralId : Nat) (prio : Priority) : QueueItem :=
  { id := s.nextItemId,
    queue_id := intakeQueueId,
    referral_id := some referralId,
    status := .pending,
    priority := prio,
    entered_queue_at := s.now,
    due_at := some (s.now + 60) }

/-- The pending care-coordination queue item created by
`validate_and_queue_for_scheduling`. -/
def newCareItem (s : WorkflowState) (referralId : Nat) (prio : Priority) : QueueItem :=
  { id := s.nextItemId,
    queue_id := careCoordinationQueueId,
    referral_id := some referralId,
    status := .pending,
    priority := prio,
    entered_queue_at := s.now,
    due_at := some (s.now + 240) }

/-- `WorkflowService.queue_email_for_extraction`: create a pending
extraction queue item for the email with subject-derived priority and an
SLA due date, and mark the email pending-extraction. -/
def queueEmailForExtraction (s : WorkflowState) (emailId : Nat) : WorkflowState :=
  { s with
    items := s.items ++ [newExtractionItem s emailId],
    emails := mapEmailRow s.emails emailId (fun em => { em with status := .pending_extraction }),
    nextItemId := s.nextItemId + 1,
    now := s.now + 1 }

/-- `WorkflowService.start_extraction`: flip the first pending queue item
of the email (no queue filter in the source query) to in-progress and bump
attempt counts. -/
def startExtraction (s : WorkflowState) (emailId : Nat) : WorkflowState :=
  { s with
    items := updateFirst (startPred emailId) (startUpdate s.now) s.items,
    emails := mapEmailRow s.emails emailId (fun em =>
      { em with status := .extraction_in_progress,
                extraction_attempts := em.extraction_attempts + 1 }),
    now := s.now + 1 }

/-- `WorkflowService.fail_extraction`: fail the first in-progress queue
item of the email and record the error. -/
def failExtraction (s : WorkflowState) (emailId : Nat) (error : String) : WorkflowState :=
  { s with
    items := updateFirst (inProgressPred emailId) (failUpdate s.now error) s.items,
    emails := mapEmailRow s.emails emailId (fun em =>
      { em with status := .extraction_failed, last_extraction_error := some error }),
    now := s.now + 1 }

/-- `WorkflowService.complete_extraction_and_queue_for_intake`: complete
the in-progress extraction item, mark the email processed, persist the
referral as pending-validation linked to the email, and create a pending
intake queue item at the referral's priority with the intake SLA. -/
def completeExtractionAndQueueForIntake (s : WorkflowState) (emailId referralId : Nat) :
    WorkflowState :=
  let items1 := updateFirst (inProgressPred emailId) (completeUpdate s.now) s.items
  let emails1 := mapEmailRow s.emails emailId (fun em =>
    { em with status := .processed, processed_at := some s.now })
  let receivedAt := (lookupEmail s emailId).bind (fun em => em.received_at)
  let referrals1 := upsertReferralRow s.referrals referralId (fun rf =>
    { rf with status := .pending_validation, email_id := some emailId,
              received_at := receivedAt })
  let prio :=
    match referrals1.find? (fun rf => rf.id == referralId) with
    | some rf => rf.priority
    | none => .medium
  { s with items := items1 ++ [newIntakeItem s referralId prio],
           emails := emails1, referrals := referrals1,
           nextItemId := s.nextItemId + 1, now := s.now + 1 }

/-- `WorkflowService.claim_intake_item`: succeed only when the current
intake item of the referral is pending; then mark it in-progress, assign
it, and stamp assignment and start times.  Returns the claimed item, or
`None` with no state change. -/
def claimIntakeItem (s : WorkflowState) (referralId : Nat) (user : String) :
    Option QueueItem × WorkflowState :=
  match getCurrentQueueItem s referralId intakeQueueId with
  | none => (none, s)
  | some it =>
    if it.status == .pending then
      (some (claimUpdate user s.now it),
       { s with
         items := updateFirst (currentPred referralId intakeQueueId)
           (claimUpdate user s.now) s.items,
         now := s.now + 1 })
    else (none, s)

/-- `WorkflowService.release_queue_item`: succeed only for the item with
the given id, assigned to the caller and in progress; reset it to pending
and clear the assignment fields, else fail without side effects. -/
def releaseQueueItem (s : WorkflowState) (queueItemId : Nat) (user : String) :
    Bool × WorkflowState :=
  match s.items.find? (releasePred queueItemId user) with
  | none => (false, s)
  | some _ =>
    (true,
     { s with items := updateFirst (releasePred queueItemId user) releaseReset s.items,
              now := s.now + 1 })

/-- `WorkflowService.validate_and_queue_for_scheduling`: mark the referral
validated (clearing the review flag), complete the current intake item, and
create a pending care-coordination queue item with its SLA. -/
def validateAndQueueForScheduling (s : WorkflowState) (referralId : Nat) : WorkflowState :=
  let referrals1 := mapReferralRow s.referrals referralId (fun rf =>
    { rf with status := .validated, validated_at := some s.now,
              needs_human_review := false })
  let items1 := updateFirst (currentPred referralId intakeQueueId)
    (completeUpdate s.now) s.items
  let prio :=
    match referrals1.find? (fun rf => rf.id == referralId) with
    | some rf => rf.priority
    | none => .medium
  { s with items := items1 ++ [newCareItem s referralId prio],
           referrals := referrals1,
           nextItemId := s.nextItemId + 1, now := s.now + 1 }

/-- `WorkflowService.reject_referral`: mark the referral rejected with the
reason and complete the current intake item with a note; no new queue item
is created. -/
def rejectReferral (s : WorkflowState) (referralId : Nat) (rejectedBy reason : String) :
    WorkflowState :=
  { s with
    referrals := mapReferralRow s.referrals referralId (fun rf =>
      { rf with status := .rejected, rejection_reason := some reason }),
    items := updateFirst (currentPred referralId intakeQueueId)
      (rejectUpdate s.now ("Rejected by " ++ rejectedBy ++ ": " ++ reason)) s.items,
    now := s.now + 1 }

/-- `WorkflowService.claim_care_coordination_item`: like the intake claim
but on the care-coordination queue; a successful claim also moves the
referral to pending-scheduling. -/
def claimCareCoordinationItem (s : WorkflowState) (referralId : Nat) (user : String) :
    Option QueueItem × WorkflowState :=
  match getCurrentQueueItem s referralId careCoordinationQueueId with
  | none => (none, s)
  | some it =>
    if it.status == .pending then
      (some (claimUpdate user s.now it),
       { s with
         items := updateFirst (currentPred referralId careCoordinationQueueId)
           (claimUpdate user s.now) s.items,
         referrals := mapReferralRow s.referrals referralId (fun rf =>
           { rf with status := .pending_scheduling }),
         now := s.now + 1 })
    else (none, s)

/-- `WorkflowService.complete_scheduling`: mark the referral scheduled and
complete the current care-coordination item. -/
def completeScheduling (s : WorkflowState) (referralId : Nat) : WorkflowState :=
  { s with
    referrals := mapReferralRow s.referrals referralId (fun rf =>
      { rf with status := .scheduled, scheduled_at := some s.now }),
    items := updateFirst (currentPred referralId careCoordinationQueueId)
      (completeUpdate s.now) s.items,
    now := s.now + 1 }

/-- The workflow-engine operations of the claim, with their arguments. -/
inductive WorkflowOp where
  | queueEmail (emailId : Nat)
  | startExtractionOp (emailId : Nat)
  | failExtractionOp (emailId : Nat) (error : String)
  | completeExtraction (emailId referralId : Nat)
  | claimIntake (referralId : Nat) (user : String)
  | release (queueItemId : Nat) (user : String)
  | validate (referralId : Nat) (user : String)
  | reject (referralId : Nat) (user reason : String)
  | claimCare (referralId : Nat) (user : String)
  | completeSchedulingOp (referralId : Nat) (user : String)
  deriving DecidableEq, Repr

/-- One engine call (claim and release results are discarded; the
`validated_by`, `rejected_by` and `scheduled_by` arguments only feed notes
and logging). -/
def stepOp (s : WorkflowState) : WorkflowOp → WorkflowState
  | .queueEmail emailId => queueEmailForExtraction s emailId
  | .startExtractionOp emailId => startExtraction s emailId
  | .failExtractionOp emailId error => failExtraction s emailId error
  | .completeExtraction emailId referralId =>
      completeExtractionAndQueueForIntake s emailId referralId
  | .claimIntake referralId user => (claimIntakeItem s referralId user).2
  | .release queueItemId user => (releaseQueueItem s queueItemId user).2
  | .validate referralId _ => validateAndQueueForScheduling s referralId
  | .reject referralId user reason => rejectReferral s referralId user reason
  | .claimCare referralId user => (claimCareCoordinationItem s referralId user).2
  | .completeSchedulingOp referralId _ => completeScheduling s referralId

/-- Run a sequence of engine calls. -/
def runOps (s : WorkflowState) (ops : List WorkflowOp) : WorkflowState :=
  ops.foldl stepOp s

/-!
### C2, C3 and C4
-/

/-- The entity key of a queue item: its email id or its referral id
(engine-created items always have exactly one of the two). -/
def itemKey (it : QueueItem) : Option (Nat ⊕ Nat) :=
  match it.email_id with
  | some e => some (Sum.inl e)
  | none => it.referral_id.map Sum.inr

/-- Membership of a queue item in the non-terminal population of one
(entity, queue) pair. -/
def matchPair (k : Nat ⊕ Nat) (q : Nat) (it : QueueItem) : Bool :=
  it.queue_id == q && decide (itemKey it = some k) && nonterminalB it.status

/-- Number of non-terminal queue items of one (entity, queue) pair. -/
def pairCount (s : WorkflowState) (k : Nat ⊕ Nat) (q : Nat) : Nat :=
  s.items.countP (matchPair k q)

/-- The claimed invariant: at most one non-terminal queue item per
(referral id or email id, queue) pair. -/
def QueueInvariant (s : WorkflowState) : Prop :=
  ∀ (k : Nat ⊕ Nat) (q : Nat), pairCount s k q ≤ 1

/-- The (entity, queue) pair for which an operation unconditionally creates
a new pending queue item, when it does. -/
def opCreatorKey : WorkflowOp → Option ((Nat ⊕ Nat) × Nat)
  | .queueEmail e => some (Sum.inl e, extractionQueueId)
  | .completeExtraction _ r => some (Sum.inr r, intakeQueueId)
  | .validate r _ => some (Sum.inr r, careCoordinationQueueId)
  | _ => none

/-- Number of item-creating operations for one pair in a sequence. -/
def creatorCount (ops : List WorkflowOp) (k : Nat ⊕ Nat) (q : Nat) : Nat :=
  (ops.filterMap opCreatorKey).countP (fun p => decide (p = (k, q)))

/-- The caller discipline of the amended claim: each item-creating
operation occurs at most once per target pair. -/
def creatorsNodup (ops : List WorkflowOp) : Prop :=
  (ops.filterMap opCreatorKey).Nodup

/-- Preservation facts for the row updates: entity key, queue, and the
non-terminal statuses they write. -/
@[simp] lemma itemKey_claimUpdate (u : String) (t : Nat) (j : QueueItem) :
    itemKey (claimUpdate u t j) = itemKey j := rfl

@[simp] lemma claimUpdate_queue_id (u : String) (t : Nat) (j : QueueItem) :
    (claimUpdate u t j).queue_id = j.queue_id := rfl

@[simp] lemma claimUpdate_status (u : String) (t : Nat) (j : QueueItem) :
    (claimUpdate u t j).status = .in_progress := rfl

@[simp] lemma itemKey_releaseReset (j : QueueItem) :
    itemKey (releaseReset j) = itemKey j := rfl

@[simp] lemma releaseReset_queue_id (j : QueueItem) :
    (releaseReset j).queue_id = j.queue_id := rfl

@[simp] lemma releaseReset_status (j : QueueItem) :
    (releaseReset j).status = .pending := rfl

@[simp] lemma itemKey_startUpdate (t : Nat) (j : QueueItem) :
    itemKey (startUpdate t j) = itemKey j := rfl

@[simp] lemma startUpdate_queue_id (t : Nat) (j : QueueItem) :
    (startUpdate t j).queue_id = j.queue_id := rfl

@[simp] lemma startUpdate_status (t : Nat) (j : QueueItem) :
    (startUpdate t j).status = .in_progress := rfl

@[simp] lemma failUpdate_status (t : Nat) (e : String) (j : QueueItem) :
    (failUpdate t e j).status = .failed := rfl

@[simp] lemma completeUpdate_status (t : Nat) (j : QueueItem) :
    (completeUpdate t j).status = .completed := rfl

@[simp] lemma rejectUpdate_status (t : Nat) (n : String) (j : QueueItem) :
    (rejectUpdate t n j).status = .completed := rfl

/-- A terminal status never counts as non-terminal. -/
@[simp] lemma nonterminalB_completed : nonterminalB .completed = false := rfl

/-- A failed status never counts as non-terminal. -/
@[simp] lemma nonterminalB_failed : nonterminalB .failed = false := rfl

/-- Counting after an in-place row update: when satisfying the predicate
after the update (for a row the query could select) implies satisfying it
before, the count cannot grow. -/
lemma countP_updateFirst_le (pred p : QueueItem → Bool) (f : QueueItem → QueueItem)
    (l : List QueueItem)
    (h : ∀ it, p it = true → pred (f it) = true → pred it = true) :
    (updateFirst p f l).countP pred ≤ l.countP pred := by
  induction l with
  | nil => simp [updateFirst]
  | cons x xs ih =>
    unfold updateFirst
    by_cases hp : p x
    · simp only [hp, if_true]
      rw [List.countP_cons, List.countP_cons]
      by_cases hf : pred (f x)
      · have hx := h x hp hf
        simp [hf, hx]
      · simp only [hf, Bool.false_eq_true, if_false]
        have : (0 : Nat) ≤ if pred x = true then 1 else 0 := Nat.zero_le _
        omega
    · simp only [hp, Bool.false_eq_true, if_false]
      rw [List.countP_cons, List.countP_cons]
      omega

/-- Counting after appending one new row. -/
lemma countP_append_one (pred : QueueItem → Bool) (l : List QueueItem) (x : QueueItem) :
    (l ++ [x]).countP pred = l.countP pred + (if pred x then 1 else 0) := by
  rw [List.countP_append]
  simp [List.countP_cons]

/-- Indicator bound for a freshly created pending item against the creator
key of the operation that created it. -/
lemma matchPair_indicator_le (k k0 : Nat ⊕ Nat) (q q0 : Nat) (it : QueueItem)
    (hq : it.queue_id = q0) (hkey : itemKey it = some k0)
    (_hnt : nonterminalB it.status = true) :
    (if matchPair k q it then 1 else 0) ≤
      (if (some (k0, q0) : Option ((Nat ⊕ Nat) × Nat)) = some (k, q) then 1 else 0) := by
  by_cases hm : matchPair k q it
  · simp only [hm, if_true]
    unfold matchPair at hm
    simp only [Bool.and_eq_true, beq_iff_eq, decide_eq_true_eq] at hm
    obtain ⟨⟨hq2, hk2⟩, _⟩ := hm
    rw [hq] at hq2
    rw [hkey] at hk2
    injection hk2 with hk3
    simp [hq2, hk3]
  · simp [hm]

/-- Indicator bound for the freshly created extraction item. -/
lemma newExtraction_indicator_le (k : Nat ⊕ Nat) (q : Nat) (s : WorkflowState) (e : Nat) :
    (if matchPair k q (newExtractionItem s e) then 1 else 0) ≤
      (if (some (Sum.inl e, extractionQueueId) : Option ((Nat ⊕ Nat) × Nat)) =
          some (k, q) then 1 else 0) :=
  matchPair_indicator_le k (Sum.inl e) q extractionQueueId (newExtractionItem s e) rfl rfl rfl

/-- Indicator bound for the freshly created intake item. -/
lemma newIntake_indicator_le (k : Nat ⊕ Nat) (q : Nat) (s : WorkflowState) (r : Nat)
    (p : Priority) :
    (if matchPair k q (newIntakeItem s r p) then 1 else 0) ≤
      (if (some (Sum.inr r, intakeQueueId) : Option ((Nat ⊕ Nat) × Nat)) =
          some (k, q) then 1 else 0) :=
  matchPair_indicator_le k (Sum.inr r) q intakeQueueId (newIntakeItem s r p) rfl rfl rfl

/-- Indicator bound for the freshly created care-coordination item. -/
lemma newCare_indicator_le (k : Nat ⊕ Nat) (q : Nat) (s : WorkflowState) (r : Nat)
    (p : Priority) :
    (if matchPair k q (newCareItem s r p) then 1 else 0) ≤
      (if (some (Sum.inr r, careCoordinationQueueId) : Option ((Nat ⊕ Nat) × Nat)) =
          some (k, q) then 1 else 0) :=
  matchPair_indicator_le k (Sum.inr r) q careCoordinationQueueId (newCareItem s r p) rfl rfl rfl

/-- The matchPair predicate transported along a key-and-queue-preserving
non-terminal-to-non-terminal-or-terminal update, for the claim update. -/
lemma matchPair_claimUpdate (k : Nat ⊕ Nat) (q : Nat) (u : String) (t : Nat)
    (j : QueueItem) (h : matchPair k q (claimUpdate u t j) = true) :
    (j.queue_id == q) = true ∧ itemKey j = some k := by
  unfold matchPair at h
  simp only [itemKey_claimUpdate, claimUpdate_queue_id, Bool.and_eq_true, decide_eq_true_eq] at h
  exact h.1

/-- Same transport for the release reset. -/
lemma matchPair_releaseReset (k : Nat ⊕ Nat) (q : Nat) (j : QueueItem)
    (h : matchPair k q (releaseReset j) = true) :
    (j.queue_id == q) = true ∧ itemKey j = some k := by
  unfold matchPair at h
  simp only [itemKey_releaseReset, releaseReset_queue_id, Bool.and_eq_true, decide_eq_true_eq] at h
  exact h.1

/-- Same transport for the start update. -/
lemma matchPair_startUpdate (k : Nat ⊕ Nat) (q : Nat) (t : Nat)
    (j : QueueItem) (h : matchPair k q (startUpdate t j) = true) :
    (j.queue_id == q) = true ∧ itemKey j = some k := by
  unfold matchPair at h
  simp only [itemKey_startUpdate, startUpdate_queue_id, Bool.and_eq_true, decide_eq_true_eq] at h
  exact h.1

/-- Terminal updates never produce non-terminal rows. -/
lemma matchPair_completeUpdate (k : Nat ⊕ Nat) (q : Nat) (t : Nat) (j : QueueItem) :
    matchPair k q (completeUpdate t j) = false := by
  unfold matchPair
  simp

/-- The fail update never produces non-terminal rows. -/
lemma matchPair_failUpdate (k : Nat ⊕ Nat) (q : Nat) (t : Nat) (e : String) (j : QueueItem) :
    matchPair k q (failUpdate t e j) = false := by
  unfold matchPair
  simp

/-- The reject update never produces non-terminal rows. -/
lemma matchPair_rejectUpdate (k : Nat ⊕ Nat) (q : Nat) (t : Nat) (n : String) (j : QueueItem) :
    matchPair k q (rejectUpdate t n j) = false := by
  unfold matchPair
  simp

/-- One engine call increases the non-terminal count of a pair by at most
the one item it may create, and only for its creator pair. -/
lemma stepOp_pairCount_le (s : WorkflowState) (op : WorkflowOp) (k : Nat ⊕ Nat) (q : Nat) :
    pairCount (stepOp s op) k q ≤
      pairCount s k q + (if opCreatorKey op = some (k, q) then 1 else 0) := by
  cases op with
  | queueEmail e =>
    unfold stepOp queueEmailForExtraction pairCount
    dsimp only
    rw [countP_append_one]
    have hck : opCreatorKey (WorkflowOp.queueEmail e) =
        some (Sum.inl e, extractionQueueId) := rfl
    rw [hck]
    exact Nat.add_le_add (Nat.le_refl _) (newExtraction_indicator_le k q s e)
  | startExtractionOp e =>
    unfold stepOp startExtraction pairCount
    dsimp only
    have hck : opCreatorKey (WorkflowOp.startExtractionOp e) = none := rfl
    rw [hck]
    simp only [reduceCtorEq, if_false]
    have hle := countP_updateFirst_le (matchPair k q) (startPred e) (startUpdate s.now)
      s.items ?_
    · omega
    · intro it hp hf
      unfold startPred at hp
      simp only [Bool.and_eq_true, beq_iff_eq] at hp
      obtain ⟨hkq, hkk⟩ := matchPair_startUpdate k q s.now it hf
      unfold matchPair
      simp [hkq, hkk, hp.2, nonterminalB]
  | failExtractionOp e err =>
    unfold stepOp failExtraction pairCount
    dsimp only
    have hck : opCreatorKey (WorkflowOp.failExtractionOp e err) = none := rfl
    rw [hck]
    simp only [reduceCtorEq, if_false]
    have hle := countP_updateFirst_le (matchPair k q) (inProgressPred e)
      (failUpdate s.now err) s.items ?_
    · omega
    · intro it _ hf
      rw [matchPair_failUpdate] at hf
      cases hf
  | completeExtraction e r =>
    unfold stepOp completeExtractionAndQueueForIntake pairCount
    dsimp only
    rw [countP_append_one]
    have hck : opCreatorKey (WorkflowOp.completeExtraction e r) =
        some (Sum.inr r, intakeQueueId) := rfl
    rw [hck]
    have hle := countP_updateFirst_le (matchPair k q) (inProgressPred e)
      (completeUpdate s.now) s.items ?_
    · exact Nat.add_le_add hle (newIntake_indicator_le k q s r _)
    · intro it _ hf
      rw [matchPair_completeUpdate] at hf
      cases hf
  | claimIntake r u =>
    unfold stepOp claimIntakeItem
    dsimp only
    cases hcur : getCurrentQueueItem s r intakeQueueId with
    | none =>
      exact Nat.le_add_right _ _
    | some it =>
      dsimp only
      by_cases hst : (it.status == QueueItemStatus.pending) = true
      · rw [if_pos hst]
        unfold pairCount
        dsimp only
        have hck : opCreatorKey (WorkflowOp.claimIntake r u) = none := rfl
        rw [hck]
        simp only [reduceCtorEq, if_false]
        have hle := countP_updateFirst_le (matchPair k q)
          (currentPred r intakeQueueId) (claimUpdate u s.now) s.items ?_
        · exact hle
        · intro j hp hf
          unfold currentPred at hp
          simp only [Bool.and_eq_true] at hp
          obtain ⟨hkq, hkk⟩ := matchPair_claimUpdate k q u s.now j hf
          unfold matchPair
          simp [hkq, hkk, hp.2]
      · rw [if_neg hst]
        exact Nat.le_add_right _ _
  | release qid u =>
    unfold stepOp releaseQueueItem
    dsimp only
    cases hfind : s.items.find? (releasePred qid u) with
    | none =>
      exact Nat.le_add_right _ _
    | some it =>
      dsimp only
      unfold pairCount
      dsimp only
      have hck : opCreatorKey (WorkflowOp.release qid u) = none := rfl
      rw [hck]
      simp only [reduceCtorEq, if_false]
      have hle := countP_updateFirst_le (matchPair k q)
        (releasePred qid u) releaseReset s.items ?_
      · exact hle
      · intro j hp hf
        unfold releasePred at hp
        simp only [Bool.and_eq_true, beq_iff_eq] at hp
        obtain ⟨hkq, hkk⟩ := matchPair_releaseReset k q j hf
        unfold matchPair
        simp [hkq, hkk, hp.2, nonterminalB]
  | validate r u =>
    unfold stepOp validateAndQueueForScheduling pairCount
    dsimp only
    rw [countP_append_one]
    have hck : opCreatorKey (WorkflowOp.validate r u) =
        some (Sum.inr r, careCoordinationQueueId) := rfl
    rw [hck]
    have hle := countP_updateFirst_le (matchPair k q)
      (currentPred r intakeQueueId) (completeUpdate s.now) s.items ?_
    · exact Nat.add_le_add hle (newCare_indicator_le k q s r _)
    · intro it _ hf
      rw [matchPair_completeUpdate] at hf
      cases hf
  | reject r u reason =>
    unfold stepOp rejectReferral pairCount
    dsimp only
    have hck : opCreatorKey (WorkflowOp.reject r u reason) = none := rfl
    rw [hck]
    simp only [reduceCtorEq, if_false]
    have hle := countP_updateFirst_le (matchPair k q)
      (currentPred r intakeQueueId)
      (rejectUpdate s.now ("Rejected by " ++ u ++ ": " ++ reason)) s.items ?_
    · omega
    · intro it _ hf
      rw [matchPair_rejectUpdate] at hf
      cases hf
  | claimCare r u =>
    unfold stepOp claimCareCoordinationItem
    dsimp only
    cases hcur : getCurrentQueueItem s r careCoordinationQueueId with
    | none =>
      exact Nat.le_add_right _ _
    | some it =>
      dsimp only
      by_cases hst : (it.status == QueueItemStatus.pending) = true
      · rw [if_pos hst]
        unfold pairCount
        dsimp only
        have hck : opCreatorKey (WorkflowOp.claimCare r u) = none := rfl
        rw [hck]
        simp only [reduceCtorEq, if_false]
        have hle := countP_updateFirst_le (matchPair k q)
          (currentPred r careCoordinationQueueId) (claimUpdate u s.now) s.items ?_
        · exact hle
        · intro j hp hf
          unfold currentPred at hp
          simp only [Bool.and_eq_true] at hp
          obtain ⟨hkq, hkk⟩ := matchPair_claimUpdate k q u s.now j hf
          unfold matchPair
          simp [hkq, hkk, hp.2]
      · rw [if_neg hst]
        exact Nat.le_add_right _ _
  | completeSchedulingOp r u =>
    unfold stepOp completeScheduling pairCount
    dsimp only
    have hck : opCreatorKey (WorkflowOp.completeSchedulingOp r u) = none := rfl
    rw [hck]
    simp only [reduceCtorEq, if_false]
    have hle := countP_updateFirst_le (matchPair k q)
      (currentPred r careCoordinationQueueId) (completeUpdate s.now) s.items ?_
    · omega
    · intro it _ hf
      rw [matchPair_completeUpdate] at hf
      cases hf

/-- Running a sequence keeps a pair's count within the budget of its
remaining creator operations. -/
lemma runOps_pairCount_le (ops : List WorkflowOp) :
    ∀ (s : WorkflowState) (k : Nat ⊕ Nat) (q : Nat),
      pairCount s k q + creatorCount ops k q ≤ 1 →
      pairCount (runOps s ops) k q ≤ 1 := by
  induction ops with
  | nil =>
    intro s k q h
    unfold creatorCount at h
    simpa [runOps] using h
  | cons op t ih =>
    intro s k q h
    have hstep := stepOp_pairCount_le s op k q
    have hcc : creatorCount (op :: t) k q =
        (if opCreatorKey op = some (k, q) then 1 else 0) + creatorCount t k q := by
      unfold creatorCount
      cases hco : opCreatorKey op with
      | none => simp [List.filterMap_cons, hco]
      | some v =>
        simp only [List.filterMap_cons, hco, List.countP_cons]
        by_cases hv : v = (k, q)
        · subst hv
          simp [Nat.add_comm]
        · have hv2 : ¬ (some v = some (k, q)) := by
            intro hcon
            exact hv (Option.some_inj.mp hcon)
          simp [hv, hv2]
    have hrun : runOps s (op :: t) = runOps (stepOp s op) t := rfl
    rw [hrun]
    apply ih
    by_cases hco : opCreatorKey op = some (k, q)
    · simp only [hco, if_true] at hstep hcc
      omega
    · simp only [hco, if_false] at hstep hcc
      omega

/-- In a duplicate-free list each element is counted at most once. -/
lemma countP_eq_le_one_of_nodup {α : Type} [DecidableEq α] (a : α) :
    ∀ l : List α, l.Nodup → l.countP (fun p => decide (p = a)) ≤ 1 := by
  intro l
  induction l with
  | nil =>
    intro _
    simp
  | cons x xs ih =>
    intro h
    rcases List.nodup_cons.mp h with ⟨hx, hxs⟩
    rw [List.countP_cons]
    simp only [decide_eq_true_eq]
    by_cases hxa : x = a
    · have h0 : xs.countP (fun p => decide (p = a)) = 0 := by
        rw [List.countP_eq_zero]
        intro b hb
        simp only [decide_eq_true_eq]
        intro hba
        apply hx
        rw [hxa, ← hba]
        exact hb
      rw [h0, if_pos hxa]
    · rw [if_neg hxa]
      have hxs2 := ih hxs
      omega

/-- Under the caller discipline, at most one creating operation targets a
given pair. -/
lemma creatorCount_le_one_of_nodup (ops : List WorkflowOp) (k : Nat ⊕ Nat) (q : Nat)
    (h : creatorsNodup ops) : creatorCount ops k q ≤ 1 := by
  unfold creatorsNodup at h
  unfold creatorCount
  exact countP_eq_le_one_of_nodup (k, q) _ h

/-- **C2** (amended). The engine's creating calls
(`queue_email_for_extraction`, `complete_extraction_and_queue_for_intake`,
`validate_and_queue_for_scheduling`) insert their new pending queue item
unconditionally, so the invariant of the claim holds only under the normal
caller discipline in which no creating call is repeated for the same
(entity, queue) pair: starting from a state with no queue items, if the
item-creating operations of the whole call sequence target pairwise
distinct (entity, queue) pairs, then every reachable state (every prefix
`ops₁` of the sequence) has at most one non-terminal (`pending` or
`in_progress`) queue item per (referral-id or email-id, queue) pair.
Without that discipline the invariant fails — see
`workflow_pair_invariant_violated`. -/
theorem workflow_nonterminal_pair_unique
    (s₀ : WorkflowState) (h₀ : s₀.items = [])
    (ops₁ ops₂ : List WorkflowOp)
    (hnd : creatorsNodup (ops₁ ++ ops₂)) :
    QueueInvariant (runOps s₀ ops₁) := by
  intro k q
  apply runOps_pairCount_le
  have h0 : pairCount s₀ k q = 0 := by
    unfold pairCount
    rw [h₀]
    rfl
  have hnd₁ : creatorsNodup ops₁ := by
    unfold creatorsNodup at hnd ⊢
    rw [List.filterMap_append] at hnd
    exact hnd.of_append_left
  have hc := creatorCount_le_one_of_nodup ops₁ k q hnd₁
  omega

/-- The initial store of the concrete workflow runs: one received email,
no queue items, no referrals. -/
def wfC2Init : WorkflowState := { emails := [{ id := 1 }] }

/-- A call sequence that repeats `validate_and_queue_for_scheduling` for
the same referral. -/
def wfC2Ops : List WorkflowOp :=
  [.queueEmail 1, .startExtractionOp 1, .completeExtraction 1 1,
   .claimIntake 1 "alice", .validate 1 "alice", .validate 1 "alice"]

/-- A normal single-pass call sequence for one email and its referral. -/
def wfC2GoodOps : List WorkflowOp :=
  [.queueEmail 1, .startExtractionOp 1, .completeExtraction 1 1,
   .claimIntake 1 "alice", .validate 1 "alice", .claimCare 1 "bob",
   .completeSchedulingOp 1 "bob"]

/-- The unamended claim is false: starting from a state with no queue
items, a double `validate_and_queue_for_scheduling` for referral 1 leaves
two pending care-coordination queue items for the pair
(referral 1, care-coordination queue), because the enqueue is
unconditional. -/
theorem workflow_pair_invariant_violated :
    wfC2Init.items = [] ∧
    pairCount (runOps wfC2Init wfC2Ops) (Sum.inr 1) careCoordinationQueueId = 2 ∧
    ¬ QueueInvariant (runOps wfC2Init wfC2Ops) := by
  refine ⟨rfl, by decide, ?_⟩
  intro hinv
  have h1 := hinv (Sum.inr 1) careCoordinationQueueId
  have h2 : pairCount (runOps wfC2Init wfC2Ops) (Sum.inr 1) careCoordinationQueueId = 2 := by
    decide
  omega

/-- Witness: the normal pipeline run satisfies the amended invariant. -/
theorem workflow_nonterminal_pair_unique_witness :
    wfC2Init.items = ([] : List QueueItem) ∧
    creatorsNodup (wfC2GoodOps ++ []) ∧
    QueueInvariant (runOps wfC2Init wfC2GoodOps) := by
  have hnd : creatorsNodup (wfC2GoodOps ++ []) := by
    unfold creatorsNodup
    decide
  exact ⟨rfl, hnd, workflow_nonterminal_pair_unique wfC2Init rfl wfC2GoodOps [] hnd⟩

/-- **C3**. Claims succeed only on a pending current item: for both
`claim_intake_item` and `claim_care_coordination_item`, if the current
queue item of the referral in the respective queue is pending, the call
returns it claimed (in-progress, assigned to the caller, assignment and
start times stamped) and applies exactly that update to the store; if the
current item exists but is not pending — in particular if it is already
in-progress — the call returns no item and leaves the state unchanged,
regardless of which user attempts it; if there is no current item, the
call likewise returns no item and changes nothing. -/
theorem claim_requires_pending (s : WorkflowState) (r : Nat) (u : String) :
    (∀ j : QueueItem,
      (claimUpdate u s.now j).status = QueueItemStatus.in_progress ∧
      (claimUpdate u s.now j).assigned_to = some u ∧
      (claimUpdate u s.now j).assigned_at = some s.now ∧
      (claimUpdate u s.now j).started_at = some s.now) ∧
    (∀ it : QueueItem, getCurrentQueueItem s r intakeQueueId = some it →
      (it.status = QueueItemStatus.pending →
        claimIntakeItem s r u =
          (some (claimUpdate u s.now it),
           { s with
             items := updateFirst (currentPred r intakeQueueId)
               (claimUpdate u s.now) s.items,
             now := s.now + 1 })) ∧
      (it.status ≠ QueueItemStatus.pending → claimIntakeItem s r u = (none, s))) ∧
    (getCurrentQueueItem s r intakeQueueId = none → claimIntakeItem s r u = (none, s)) ∧
    (∀ it : QueueItem, getCurrentQueueItem s r careCoordinationQueueId = some it →
      (it.status = QueueItemStatus.pending →
        claimCareCoordinationItem s r u =
          (some (claimUpdate u s.now it),
           { s with
             items := updateFirst (currentPred r careCoordinationQueueId)
               (claimUpdate u s.now) s.items,
             referrals := mapReferralRow s.referrals r (fun rf =>
               { rf with status := ReferralStatus.pending_scheduling }),
             now := s.now + 1 })) ∧
      (it.status ≠ QueueItemStatus.pending →
        claimCareCoordinationItem s r u = (none, s))) ∧
    (getCurrentQueueItem s r careCoordinationQueueId = none →
      claimCareCoordinationItem s r u = (none, s)) := by
  refine ⟨fun j => ⟨rfl, rfl, rfl, rfl⟩, ?_, ?_, ?_, ?_⟩
  · intro it hcur
    constructor
    · intro hp
      unfold claimIntakeItem
      rw [hcur]
      dsimp only
      rw [if_pos (by simp [hp])]
    · intro hnp
      unfold claimIntakeItem
      rw [hcur]
      dsimp only
      rw [if_neg (by simp [hnp])]
  · intro hcur
    unfold claimIntakeItem
    rw [hcur]
  · intro it hcur
    constructor
    · intro hp
      unfold claimCareCoordinationItem
      rw [hcur]
      dsimp only
      rw [if_pos (by simp [hp])]
    · intro hnp
      unfold claimCareCoordinationItem
      rw [hcur]
      dsimp only
      rw [if_neg (by simp [hnp])]
  · intro hcur
    unfold claimCareCoordinationItem
    rw [hcur]

/-- A pending intake queue item for referral 1. -/
def sampleIntakeItem : QueueItem :=
  { id := 1, queue_id := intakeQueueId, referral_id := some 1,
    status := QueueItemStatus.pending }

/-- An in-progress (already claimed) care-coordination item for
referral 1, assigned to "alice". -/
def sampleCareItem : QueueItem :=
  { id := 2, queue_id := careCoordinationQueueId, referral_id := some 1,
    status := QueueItemStatus.in_progress, assigned_to := some "alice",
    assigned_at := some 4, started_at := some 4 }

/-- A store with a pending intake item and an in-progress (already
claimed) care-coordination item for referral 1. -/
def sampleClaimState : WorkflowState :=
  { items := [sampleIntakeItem, sampleCareItem],
    referrals := [{ id := 1, status := ReferralStatus.pending_validation }],
    nextItemId := 3,
    now := 5 }

/-- Witness for C3: in `sampleClaimState`, "bob" successfully claims the
pending intake item, and "bob"'s claim of the already in-progress
care-coordination item returns nothing and changes nothing. -/
theorem claim_requires_pending_witness :
    claimIntakeItem sampleClaimState 1 "bob" =
      (some (claimUpdate "bob" sampleClaimState.now sampleIntakeItem),
       { sampleClaimState with
         items := updateFirst (currentPred 1 intakeQueueId)
           (claimUpdate "bob" sampleClaimState.now) sampleClaimState.items,
         now := sampleClaimState.now + 1 }) ∧
    claimCareCoordinationItem sampleClaimState 1 "bob" = (none, sampleClaimState) := by
  have h := claim_requires_pending sampleClaimState 1 "bob"
  refine ⟨?_, ?_⟩
  · exact (h.2.1 sampleIntakeItem (by decide)).1 (by decide)
  · exact (h.2.2.2.1 sampleCareItem (by decide)).2 (by decide)

/-- **C4**. `release_queue_item` succeeds exactly on the row matching its
query — the item with the given id, assigned to the calling user and
currently in progress: the query predicate holds of a row iff those three
conditions do; when no row matches, the call returns the failure indicator
`false` with the state unchanged (covering item-not-found,
not-in-progress, and assigned-to-another-user alike); when a row matches,
the call returns `true` and resets that first matching row, the reset
putting it back to pending with the assignment fields
(`assigned_to`/`assigned_at`/`started_at`) cleared and everything else
kept. -/
theorem release_owner_in_progress_only (s : WorkflowState) (qid : Nat) (u : String) :
    (∀ j : QueueItem, releasePred qid u j = true ↔
      (j.id = qid ∧ j.assigned_to = some u ∧
        j.status = QueueItemStatus.in_progress)) ∧
    (s.items.find? (releasePred qid u) = none →
      releaseQueueItem s qid u = (false, s)) ∧
    (∀ it : QueueItem, s.items.find? (releasePred qid u) = some it →
      releaseQueueItem s qid u =
        (true,
         { s with items := updateFirst (releasePred qid u) releaseReset s.items,
                  now := s.now + 1 })) ∧
    (∀ j : QueueItem,
      (releaseReset j).status = QueueItemStatus.pending ∧
      (releaseReset j).assigned_to = none ∧
      (releaseReset j).assigned_at = none ∧
      (releaseReset j).started_at = none ∧
      (releaseReset j).id = j.id ∧
      (releaseReset j).queue_id = j.queue_id ∧
      (releaseReset j).referral_id = j.referral_id ∧
      (releaseReset j).email_id = j.email_id) := by
  refine ⟨?_, ?_, ?_, fun j => ⟨rfl, rfl, rfl, rfl, rfl, rfl, rfl, rfl⟩⟩
  · intro j
    unfold releasePred
    simp [Bool.and_eq_true, and_assoc]
  · intro hfind
    unfold releaseQueueItem
    rw [hfind]
  · intro it hfind
    unfold releaseQueueItem
    rw [hfind]

/-- An in-progress queue item assigned to "alice". -/
def sampleReleaseItem : QueueItem :=
  { id := 7, queue_id := intakeQueueId, referral_id := some 1,
    status := QueueItemStatus.in_progress, assigned_to := some "alice",
    assigned_at := some 2, started_at := some 2 }

/-- A store whose only item is in progress and assigned to "alice". -/
def sampleReleaseState : WorkflowState :=
  { items := [sampleReleaseItem],
    nextItemId := 8,
    now := 3 }

/-- Witness for C4: "alice" releases her in-progress item 7, while "bob"'s
attempt on the same item fails with the state unchanged. -/
theorem release_owner_in_progress_only_witness :
    releaseQueueItem sampleReleaseState 7 "alice" =
      (true,
       { sampleReleaseState with
         items := updateFirst (releasePred 7 "alice") releaseReset
           sampleReleaseState.items,
         now := sampleReleaseState.now + 1 }) ∧
    releaseQueueItem sampleReleaseState 7 "bob" = (false, sampleReleaseState) := by
  have h1 := release_owner_in_progress_only sampleReleaseState 7 "alice"
  have h2 := release_owner_in_progress_only sampleReleaseState 7 "bob"
  exact ⟨h1.2.2.1 sampleReleaseItem (by decide), h2.2.1 (by decide)⟩

end ReferralCRM
